import Mathlib

/-!
Verification of the MediGuard biomarker normalization and scoring core.

The development shallowly embeds the Python sources of the repository:
  * `mediguard/models/scaler.py`    (`BiomarkerScaler`)
  * `mediguard/models/predictor.py` (`MediGuardPredictor`)
  * `mediguard/parsers/input_parser.py` (`BiomarkerInputParser`)

Modelling conventions:
  * Python floats are modelled as rationals (`ℚ`); the clinical rule
    thresholds and the template values are all small decimals, so every
    computation the theorems evaluate is exact in both models.
  * Python dicts are modelled as insertion-ordered association lists
    (`List (String × ℚ)`) with an overwriting insert (`insertKV`), which
    reproduces dict iteration order and `d[k] = v` semantics.
  * Fallible operations (`raise`, `KeyError`, `ZeroDivisionError` on a
    zero-span catalog) are modelled with `Option`.
  * The biomarker/disease-category catalog is loaded from a JSON data file
    at process start; the algorithms are parametric in it, so the embedding
    takes the catalog as an explicit argument.
-/

namespace MediGuard

/-- One biomarker catalog entry: id, display name, short code, unit, the
normal range `[normalMin, normalMax]` and the critical range
`[criticalLow, criticalHigh]` (fields of the `biomarkers.json` entries used
by `scaler.py` and `predictor.py`). -/
structure Biomarker where
  id : String
  name : String
  code : String
  unit : String
  normalMin : ℚ
  normalMax : ℚ
  criticalLow : ℚ
  criticalHigh : ℚ
deriving DecidableEq

/-- The four warning templates `BiomarkerScaler.scale_value` can emit: the
two range-breach messages (`⚠️ ... BELOW/ABOVE normal range`) and the two
critical-breach messages (`🚨 CRITICAL: ... dangerously LOW/HIGH`). -/
inductive WarningKind where
  | belowNormal
  | aboveNormal
  | criticallyLow
  | criticallyHigh
deriving DecidableEq

/-- A warning, abstracted from its message string to the biomarker it names
and which of the four templates produced it. -/
structure Warning where
  bioId : String
  kind : WarningKind
deriving DecidableEq

/-- Whether a warning is one of the two critical-breach (`🚨 CRITICAL`)
messages. -/
def Warning.isCritical (w : Warning) : Bool :=
  match w.kind with
  | .criticallyLow => true
  | .criticallyHigh => true
  | _ => false

/-- `BiomarkerScaler.scale_value` (scaler.py lines 38-87) for a biomarker
already fetched from the catalog: emit a range-breach warning if the raw
value is outside the normal range, a critical-breach warning if it is
strictly outside the critical range, then min-max scale on the critical
range and clip to `[0, 1]`.  Note `ℚ` division totalizes the zero-span
case that raises `ZeroDivisionError` in Python; theorems that depend on
the span therefore carry the catalog invariant `criticalLow < criticalHigh`
as a hypothesis. -/
def scaleValue (bio : Biomarker) (raw : ℚ) : ℚ × List Warning :=
  let rangeWarnings : List Warning :=
    if raw < bio.normalMin then [⟨bio.id, .belowNormal⟩]
    else if bio.normalMax < raw then [⟨bio.id, .aboveNormal⟩]
    else []
  let criticalWarnings : List Warning :=
    if raw < bio.criticalLow then [⟨bio.id, .criticallyLow⟩]
    else if bio.criticalHigh < raw then [⟨bio.id, .criticallyHigh⟩]
    else []
  let scaled := (raw - bio.criticalLow) / (bio.criticalHigh - bio.criticalLow)
  (max 0 (min 1 scaled), rangeWarnings ++ criticalWarnings)

/-- The state `BiomarkerScaler.__init__` builds: the catalog list (the
Python constructor derives both `self.biomarkers` — an id-keyed dict —
and `self.biomarker_order` from this list). -/
structure ScalerState where
  biomarkers : List Biomarker
deriving DecidableEq

/-- `BiomarkerScaler.__init__` (scaler.py lines 17-36): reads the catalog
and stores the biomarker dict and order.  `Option` models the possibility
of a fatal load-time rejection; the constructor performs no validation of
the entries, so it returns `some` state for every catalog. -/
def scalerInit (config : List Biomarker) : Option ScalerState :=
  some ⟨config⟩

/-- A per-request raw value map (`raw_values`), as `biomarker_id → value`.
`none` models an absent key. -/
def RawValues : Type := String → Option ℚ

/-- `raw_values.get(k, d)`: lookup with default. -/
def rvGet (rv : RawValues) (k : String) (d : ℚ) : ℚ := (rv k).getD d

/-- The loop body of `BiomarkerScaler.scale_all` (scaler.py lines 102-124)
over the canonical catalog order: a missing biomarker value raises
(`none`); otherwise each value is scaled and the warnings are accumulated
in catalog order. -/
def scaleAllGo (rv : RawValues) : List Biomarker → Option (List ℚ × List Warning)
  | [] => some ([], [])
  | b :: rest =>
    match rv b.id with
    | none => none
    | some raw =>
      let sw := scaleValue b raw
      match scaleAllGo rv rest with
      | none => none
      | some (ss, wss) => some (sw.1 :: ss, sw.2 ++ wss)

/-- `BiomarkerScaler.scale_all` (scaler.py lines 89-130), returning the
scaled vector in canonical order and the concatenated warning list.  (The
`raw_summary` display record is pure metadata formatting and is not part
of any claim.) -/
def scaleAll (st : ScalerState) (rv : RawValues) : Option (List ℚ × List Warning) :=
  scaleAllGo rv st.biomarkers

/-- Python dict assignment `d[k] = v` on an insertion-ordered association
list: overwrite in place if the key exists, else append. -/
def insertKV {α : Type} (k : String) (v : α) : List (String × α) → List (String × α)
  | [] => [(k, v)]
  | (k', v') :: rest => if k' = k then (k, v) :: rest else (k', v') :: insertKV k v rest

/-- Python dict lookup `d[k]` / `k in d` on an association list. -/
def lookupKV {α : Type} (k : String) : List (String × α) → Option α
  | [] => none
  | (k', v) :: rest => if k' = k then some v else lookupKV k rest

/-- Sepsis rule weights (predictor.py lines 96-104). -/
def sepsisScore (rv : RawValues) : ℚ :=
  (if 2 < rvGet rv "procalcitonin" 0 then 0.4 else 0) +
  (if 4 < rvGet rv "lactate" 0 then 0.3 else 0) +
  (if 12 < rvGet rv "wbc_count" 0 ∨ rvGet rv "wbc_count" 0 < 4 then 0.2 else 0) +
  (if 100 < rvGet rv "crp" 0 then 0.1 else 0)

/-- Cardiac-event rule weights (predictor.py lines 106-112). -/
def cardiacEventScore (rv : RawValues) : ℚ :=
  (if 0.04 < rvGet rv "troponin" 0 then 0.5 else 0) +
  (if 400 < rvGet rv "bnp" 0 then 0.3 else 0) +
  (if 500 < rvGet rv "ldh" 0 then 0.2 else 0)

/-- Renal-failure rule weights (predictor.py lines 114-122), including the
creatinine/BUN ratio predicate with its `max(bun, 1)` denominator floor. -/
def renalFailureScore (rv : RawValues) : ℚ :=
  (if 2 < rvGet rv "creatinine" 0 then 0.4 else 0) +
  (if 40 < rvGet rv "bun" 0 then 0.3 else 0) +
  (if 5.5 < rvGet rv "potassium" 0 then 0.2 else 0) +
  (if rvGet rv "creatinine" 0 / max (rvGet rv "bun" 1) 1 < 0.05 then 0.1 else 0)

/-- Liver-disease rule weights (predictor.py lines 124-132). -/
def liverDiseaseScore (rv : RawValues) : ℚ :=
  (if 200 < rvGet rv "alt" 0 ∨ 200 < rvGet rv "ast" 0 then 0.4 else 0) +
  (if 2 < rvGet rv "bilirubin_total" 0 then 0.3 else 0) +
  (if rvGet rv "albumin" 0 < 3 then 0.2 else 0) +
  (if 1.5 < rvGet rv "inr" 0 then 0.1 else 0)

/-- Metabolic-disorder rule weights (predictor.py lines 134-140); note the
non-zero defaults for sodium (140) and calcium (9.5). -/
def metabolicDisorderScore (rv : RawValues) : ℚ :=
  (if 200 < rvGet rv "glucose" 0 ∨ rvGet rv "glucose" 0 < 60 then 0.4 else 0) +
  (if 10 < |rvGet rv "sodium" 140 - 140| then 0.3 else 0) +
  (if rvGet rv "calcium" 9.5 < 7 ∨ 11 < rvGet rv "calcium" 9.5 then 0.3 else 0)

/-- Coagulopathy rule weights (predictor.py lines 142-148). -/
def coagulopathyScore (rv : RawValues) : ℚ :=
  (if 2 < rvGet rv "inr" 0 then 0.4 else 0) +
  (if 2 < rvGet rv "d_dimer" 0 then 0.3 else 0) +
  (if rvGet rv "platelet_count" 0 < 100 then 0.3 else 0)

/-- Anemia rule weights (predictor.py lines 150-154); the two hemoglobin
predicates accumulate. -/
def anemiaScore (rv : RawValues) : ℚ :=
  (if rvGet rv "hemoglobin" 0 < 10 then 0.6 else 0) +
  (if rvGet rv "hemoglobin" 0 < 7 then 0.4 else 0)

/-- Infection rule weights (predictor.py lines 156-164). -/
def infectionScore (rv : RawValues) : ℚ :=
  (if 11 < rvGet rv "wbc_count" 0 then 0.3 else 0) +
  (if 10 < rvGet rv "crp" 0 then 0.3 else 0) +
  (if 30 < rvGet rv "esr" 0 then 0.2 else 0) +
  (if 0.25 < rvGet rv "procalcitonin" 0 then 0.2 else 0)

/-- The eight category ids the rule block of
`MediGuardPredictor._compute_probabilities` writes to.  In Python,
`scores[cid] += w` raises `KeyError` unless each of these ids is a key of
the catalog's category dict, so theorems carry their catalog membership as
a hypothesis. -/
def ruleCategoryIds : List String :=
  ["sepsis", "cardiac_event", "renal_failure", "liver_disease",
   "metabolic_disorder", "coagulopathy", "anemia", "infection"]

/-- The total rule weight accumulated for one category id by the rule block
of `_compute_probabilities` (each `scores[cid] += w` statement targets a
single literal id, so the imperative update sequence is equivalent to this
per-category sum). -/
def catScore (rv : RawValues) (c : String) : ℚ :=
  if c = "sepsis" then sepsisScore rv
  else if c = "cardiac_event" then cardiacEventScore rv
  else if c = "renal_failure" then renalFailureScore rv
  else if c = "liver_disease" then liverDiseaseScore rv
  else if c = "metabolic_disorder" then metabolicDisorderScore rv
  else if c = "coagulopathy" then coagulopathyScore rv
  else if c = "anemia" then anemiaScore rv
  else if c = "infection" then infectionScore rv
  else 0

/-- `sum(scores.values())` (predictor.py line 167), where the scores dict is
keyed by the catalog's category ids in catalog order. -/
def totalScore (catOrder : List String) (rv : RawValues) : ℚ :=
  (catOrder.map (catScore rv)).sum

/-- `MediGuardPredictor._compute_probabilities` (predictor.py lines 89-175):
build the per-category scores dict in catalog order, then normalize.  If the
total is positive each score is divided by it; otherwise every category gets
0.0 and the designated "normal" category is assigned 1.0 by dict assignment
(overwriting in place when — as in the real catalog — "normal" is already a
key). -/
def computeProbabilities (catOrder : List String) (rv : RawValues) :
    List (String × ℚ) :=
  let total := totalScore catOrder rv
  if 0 < total then catOrder.map (fun c => (c, catScore rv c / total))
  else insertKV "normal" 1 (catOrder.map (fun c => (c, 0)))

/-- Round-half-to-even on rationals, the rounding mode of Python `round`.
(The float arguments the claims exercise are exact decimals away from a
half-way point, where the binary-float and rational roundings agree.) -/
def roundHalfEven (x : ℚ) : ℤ :=
  let f := ⌊x⌋
  if x - f < 1/2 then f
  else if (1 : ℚ)/2 < x - f then f + 1
  else if f % 2 = 0 then f else f + 1

/-- Python `round(x, ndigits)` on rationals. -/
def pyRound (ndigits : ℕ) (x : ℚ) : ℚ :=
  (roundHalfEven (x * 10 ^ ndigits) : ℚ) / 10 ^ ndigits

/-- The scanning loop of Python `max(d, key=d.get)`: keep the current best,
replace it only on a strictly greater value (so the first maximal element
in iteration order wins). -/
def pythonMaxGo (best : String × ℚ) : List (String × ℚ) → String × ℚ
  | [] => best
  | p :: rest => if best.2 < p.2 then pythonMaxGo p rest else pythonMaxGo best rest

/-- Python `max(d, key=d.get)` over an insertion-ordered dict, paired with
the winning value; `none` on an empty dict (Python raises `ValueError`). -/
def pythonMax : List (String × ℚ) → Option (String × ℚ)
  | [] => none
  | p :: rest => some (pythonMaxGo p rest)

/-- One ranked key-biomarker record produced by
`MediGuardPredictor._identify_key_biomarkers` (predictor.py lines 226-235). -/
structure KeyBiomarker where
  id : String
  name : String
  code : String
  value : ℚ
  unit : String
  direction : String
  status : String
  deviation : ℚ
deriving DecidableEq

/-- The hardcoded `relevance_map` of `_identify_key_biomarkers`
(predictor.py lines 190-200), accessed with `.get(prediction, [])`. -/
def relevanceMap (prediction : String) : List String :=
  if prediction = "sepsis" then ["procalcitonin", "lactate", "wbc_count", "crp"]
  else if prediction = "cardiac_event" then ["troponin", "bnp", "ldh"]
  else if prediction = "renal_failure" then ["creatinine", "bun", "potassium"]
  else if prediction = "liver_disease" then
    ["alt", "ast", "bilirubin_total", "albumin", "inr"]
  else if prediction = "metabolic_disorder" then
    ["glucose", "sodium", "calcium", "potassium"]
  else if prediction = "coagulopathy" then ["inr", "d_dimer", "platelet_count"]
  else if prediction = "anemia" then ["hemoglobin"]
  else if prediction = "infection" then ["wbc_count", "crp", "esr", "procalcitonin"]
  else []

/-- Lookup in the id-keyed biomarker dict `self.biomarkers` (both classes
build it as `{b["id"]: b for b in config["biomarkers"]}`; for the
duplicate-free catalogs the claims quantify over, first match equals the
dict's last-write-wins entry). -/
def findBio : List Biomarker → String → Option Biomarker
  | [], _ => none
  | b :: rest, i => if b.id = i then some b else findBio rest i

/-- The spec's deviation score `|raw − midpoint| / midpoint` with
`midpoint = (normal_range.min + normal_range.max) / 2`
(predictor.py lines 222-224, before rounding). -/
def deviationScore (b : Biomarker) (raw : ℚ) : ℚ :=
  |raw - (b.normalMin + b.normalMax) / 2| / ((b.normalMin + b.normalMax) / 2)

/-- One iteration body of the `_identify_key_biomarkers` loop
(predictor.py lines 204-235): direction/status classification against the
normal range and the deviation rounded to two decimal places. -/
def mkKeyBiomarker (b : Biomarker) (raw : ℚ) : KeyBiomarker :=
  { id := b.id
    name := b.name
    code := b.code
    value := raw
    unit := b.unit
    direction := if raw < b.normalMin then "↓" else if b.normalMax < raw then "↑" else "→"
    status := if raw < b.normalMin then "LOW" else if b.normalMax < raw then "HIGH" else "NORMAL"
    deviation := pyRound 2 (deviationScore b raw) }

/-- The gathering loop of `_identify_key_biomarkers`: relevant biomarkers
absent from the raw input are skipped (`continue`); a relevant biomarker
present in the input but absent from the catalog raises `KeyError`
(`none`). -/
def keyBiomarkerEntries (cat : List Biomarker) (rv : RawValues) :
    List String → Option (List KeyBiomarker)
  | [] => some []
  | i :: rest =>
    match rv i with
    | none => keyBiomarkerEntries cat rv rest
    | some raw =>
      match findBio cat i with
      | none => none
      | some b =>
        match keyBiomarkerEntries cat rv rest with
        | none => none
        | some es => some (mkKeyBiomarker b raw :: es)

/-- Descending order on the stored (two-decimal-rounded) deviation, the key
of `key_biomarkers.sort(key=lambda x: x["deviation"], reverse=True)`. -/
def devGE (a b : KeyBiomarker) : Prop := b.deviation ≤ a.deviation

instance : DecidableRel devGE :=
  fun a b => inferInstanceAs (Decidable (b.deviation ≤ a.deviation))

instance : IsTotal KeyBiomarker devGE :=
  ⟨fun a b => le_total b.deviation a.deviation⟩

instance : IsTrans KeyBiomarker devGE :=
  ⟨fun _ _ _ hab hbc => le_trans hbc hab⟩

/-- Python `list.sort(key=..., reverse=True)` is a stable descending sort;
insertion sort with `devGE` is stable and sorted for the same preorder, so
it produces the identical list. -/
def sortKeyBiomarkers (l : List KeyBiomarker) : List KeyBiomarker :=
  List.insertionSort devGE l

/-- `MediGuardPredictor._identify_key_biomarkers` (predictor.py lines
177-240): gather the relevant biomarkers present in the input, sort by
stored deviation descending (stable), truncate to the top 5. -/
def identifyKeyBiomarkers (cat : List Biomarker) (rv : RawValues)
    (prediction : String) : Option (List KeyBiomarker) :=
  (keyBiomarkerEntries cat rv (relevanceMap prediction)).map
    (fun es => (sortKeyBiomarkers es).take 5)

/-- The fields of the `predict` result dict that the claims reference.
(The sorted probability display map and the explanation string are
formatting of the same data and are not modelled.) -/
structure PredictOut where
  prediction : String
  confidence : ℚ
  keyBiomarkers : List KeyBiomarker
deriving DecidableEq

/-- `MediGuardPredictor.predict` (predictor.py lines 39-87): compute the
probabilities, take `max(probabilities, key=probabilities.get)`, report
`round(probabilities[prediction], 3)` as confidence, and attach the ranked
key biomarkers. -/
def predict (catOrder : List String) (cat : List Biomarker) (rv : RawValues) :
    Option PredictOut :=
  let probs := computeProbabilities catOrder rv
  match pythonMax probs with
  | none => none
  | some wp =>
    match lookupKV wp.1 probs with
    | none => none
    | some conf =>
      match identifyKeyBiomarkers cat rv wp.1 with
      | none => none
      | some kbs => some ⟨wp.1, pyRound 3 conf, kbs⟩

/-- The nine category ids of the repository's catalog, in a canonical
order with "normal" last (the claims' theorems are parametric in this
order; concrete instances only need a valid example). -/
def cat9 : List String :=
  ["sepsis", "cardiac_event", "renal_failure", "liver_disease",
   "metabolic_disorder", "coagulopathy", "anemia", "infection", "normal"]

/-- A complete nominal raw value map: every clinical predicate of
`_compute_probabilities` is false on it. -/
def nominalList : List (String × ℚ) :=
  [("hemoglobin", 14), ("wbc_count", 7), ("platelet_count", 250),
   ("glucose", 100), ("creatinine", 1), ("bun", 15), ("sodium", 140),
   ("potassium", 4.2), ("chloride", 102), ("calcium", 9.5), ("alt", 30),
   ("ast", 30), ("bilirubin_total", 1), ("albumin", 4.5),
   ("total_protein", 7), ("ldh", 200), ("troponin", 0.01), ("bnp", 100),
   ("crp", 5), ("esr", 10), ("procalcitonin", 0.1), ("d_dimer", 0.5),
   ("inr", 1), ("lactate", 1)]

/-- `nominalList` as a raw value map. -/
def rvNominal : RawValues := fun k => lookupKV k nominalList

/-- A raw value map containing only an elevated procalcitonin. -/
def c5Raw : RawValues := fun k => if k = "procalcitonin" then some 3 else none

/-- A procalcitonin catalog entry with normal range `[0, 2]` (midpoint 1). -/
def c6Pct : Biomarker := ⟨"procalcitonin", "Procalcitonin", "PCT", "ng/mL", 0, 2, 0.05, 10⟩

/-- A lactate catalog entry with normal range `[0.5, 1.5]` (midpoint 1). -/
def c6Lac : Biomarker := ⟨"lactate", "Lactate", "LACT", "mmol/L", 0.5, 1.5, 0.3, 15⟩

/-- A catalog fragment with unit midpoints for the deviation computation. -/
def c6Catalog : List Biomarker := [c6Pct, c6Lac]

/-- Raw values whose true deviations 0.121 and 0.124 both round to 0.12. -/
def c6Raw : RawValues :=
  fun k => if k = "procalcitonin" then some 1.121
    else if k = "lactate" then some 1.124 else none

/-- Python `str.strip()` whitespace predicate (ASCII fragment; the exotic
Unicode whitespace Python also strips is never exercised). -/
def pyIsSpace (c : Char) : Bool := c = ' ' || c = '\t' || c = '\n' || c = '\r'

/-- Python `str.strip()`. -/
def pyStrip (s : String) : String :=
  (((s.toList.dropWhile pyIsSpace).reverse.dropWhile pyIsSpace).reverse).asString

/-- Python `str.lower()` (ASCII fragment). -/
def pyLower (s : String) : String := (s.toList.map Char.toLower).asString

/-- Python `str.replace(a, b)` for single-character patterns. -/
def pyReplaceChar (a b : Char) (s : String) : String :=
  (s.toList.map (fun c => if c = a then b else c)).asString

/-- Python `c in s` for a single-character needle. -/
def pyContainsChar (s : String) (c : Char) : Bool := s.toList.contains c

/-- The opening-brace character (`chr 123`). -/
def lbrace : Char := Char.ofNat 123

/-- The closing-brace character (`chr 125`). -/
def rbrace : Char := Char.ofNat 125

/-- Python `text.startswith("\x7b")`. -/
def startsWithLBrace (s : String) : Bool :=
  match s.toList with
  | c :: _ => c = lbrace
  | [] => false

/-- Accumulator loop for splitting on a character class, keeping empty
fields (the semantics of both `re.split(r'[,\n]', text)` and
`text.split(",")`). -/
def splitCharsAux (p : Char → Bool) : List Char → List Char → List (List Char)
  | [], acc => [acc.reverse]
  | c :: cs, acc =>
    if p c then acc.reverse :: splitCharsAux p cs []
    else splitCharsAux p cs (c :: acc)

/-- Split a string at every character satisfying `p`. -/
def pySplitOn (p : Char → Bool) (s : String) : List String :=
  (splitCharsAux p s.toList []).map List.asString

/-- Accumulator loop for `str.split(sep, 1)`. -/
def splitFirstAux (sep : Char) : List Char → List Char → Option (String × String)
  | [], _ => none
  | c :: cs, acc =>
    if c = sep then some (acc.reverse.asString, cs.asString)
    else splitFirstAux sep cs (c :: acc)

/-- Python `s.split(sep, 1)` when `sep` occurs (`none` when it does not,
in which case the source's `in` guard prevents the call). -/
def pySplitFirst (s : String) (sep : Char) : Option (String × String) :=
  splitFirstAux sep s.toList []

/-- `BiomarkerInputParser.BIOMARKER_ORDER` (input_parser.py lines 19-25):
the 24 canonical biomarker ids in canonical order. -/
def BIOMARKER_ORDER : List String :=
  ["hemoglobin", "wbc_count", "platelet_count", "glucose", "creatinine",
   "bun", "sodium", "potassium", "chloride", "calcium",
   "alt", "ast", "bilirubin_total", "albumin", "total_protein",
   "ldh", "troponin", "bnp", "crp", "esr",
   "procalcitonin", "d_dimer", "inr", "lactate"]

/-- `BiomarkerInputParser.BIOMARKER_ALIASES` (input_parser.py lines 28-45). -/
def BIOMARKER_ALIASES : List (String × String) :=
  [("hgb", "hemoglobin"), ("hb", "hemoglobin"), ("hemo", "hemoglobin"),
   ("wbc", "wbc_count"), ("white_blood_cell", "wbc_count"),
   ("plt", "platelet_count"), ("platelet", "platelet_count"),
   ("glu", "glucose"), ("blood_sugar", "glucose"), ("bg", "glucose"),
   ("creat", "creatinine"), ("cr", "creatinine"),
   ("na", "sodium"),
   ("k", "potassium"),
   ("cl", "chloride"),
   ("ca", "calcium"),
   ("tbil", "bilirubin_total"), ("bilirubin", "bilirubin_total"),
   ("alb", "albumin"),
   ("tp", "total_protein"), ("protein", "total_protein"),
   ("tni", "troponin"), ("troponin_i", "troponin"),
   ("dd", "d_dimer"), ("ddimer", "d_dimer"),
   ("lac", "lactate"),
   ("pct", "procalcitonin")]

/-- `BiomarkerInputParser._normalize_biomarker_name` (input_parser.py lines
167-179): lower-case, strip, replace spaces and hyphens with underscores,
then resolve against the canonical ids first and the alias table second. -/
def normalizeBiomarkerName (name : String) : Option String :=
  let n := pyReplaceChar '-' '_' (pyReplaceChar ' ' '_' (pyStrip (pyLower name)))
  if n ∈ BIOMARKER_ORDER then some n
  else lookupKV n BIOMARKER_ALIASES

/-- The syntactic pieces of a decimal float literal: sign, integer part,
fractional digits with their count, exponent.  Separating the (kernel-
computable) recognition from the rational value lets concrete runs
evaluate. -/
structure FloatParts where
  neg : Bool
  ip : ℕ
  fp : ℕ
  fpLen : ℕ
  exp : ℤ
deriving DecidableEq

/-- Digit string to number. -/
def digitsToNat (ds : List Char) : ℕ :=
  ds.foldl (fun a c => a * 10 + (c.toNat - 48)) 0

/-- Parse an optional exponent suffix occupying the whole remainder. -/
def parseExp : List Char → Option ℤ
  | [] => some 0
  | c :: rest =>
    if c = 'e' ∨ c = 'E' then
      match rest with
      | '+' :: ds =>
        if ds ≠ [] ∧ ds.all Char.isDigit then some (digitsToNat ds) else none
      | '-' :: ds =>
        if ds ≠ [] ∧ ds.all Char.isDigit then some (-(digitsToNat ds : ℤ)) else none
      | ds =>
        if ds ≠ [] ∧ ds.all Char.isDigit then some (digitsToNat ds) else none
    else none

/-- Recognize `digits [. digits] [exp]` / `. digits [exp]` after the sign,
consuming the whole remainder. -/
def parseDecimalBody (neg : Bool) (cs : List Char) : Option FloatParts :=
  let ipSpan := cs.span Char.isDigit
  match ipSpan.2 with
  | '.' :: rest2 =>
    let fpSpan := rest2.span Char.isDigit
    if ipSpan.1 = [] ∧ fpSpan.1 = [] then none
    else
      match parseExp fpSpan.2 with
      | none => none
      | some e =>
        some ⟨neg, digitsToNat ipSpan.1, digitsToNat fpSpan.1, fpSpan.1.length, e⟩
  | rest =>
    if ipSpan.1 = [] then none
    else
      match parseExp rest with
      | none => none
      | some e => some ⟨neg, digitsToNat ipSpan.1, 0, 0, e⟩

/-- The decimal-literal fragment of Python `float(str)`: strip, optional
sign, digits with optional point and exponent.  (`inf`/`nan` and digit
underscores, which Python also accepts, are not modelled; no claim
exercises them.) -/
def pyFloatParts (s : String) : Option FloatParts :=
  match (pyStrip s).toList with
  | '+' :: r => parseDecimalBody false r
  | '-' :: r => parseDecimalBody true r
  | r => parseDecimalBody false r

/-- The rational value of recognized float syntax. -/
def partsVal (p : FloatParts) : ℚ :=
  (if p.neg then -1 else 1) * ((p.ip : ℚ) + (p.fp : ℚ) / 10 ^ p.fpLen) * 10 ^ p.exp

/-- Python `float(str)` on the decimal fragment. -/
def pyFloat (s : String) : Option ℚ := (pyFloatParts s).map partsVal

/-- A decoded JSON value.  Nested arrays and objects are not modelled: on
the flat biomarker documents the parser exercises they do not occur (and,
like `null`, they would fail the subsequent `float(value)`). -/
inductive JVal where
  | jnum (q : ℚ)
  | jstr (s : String)
  | jbool (b : Bool)
  | jnull
deriving DecidableEq

/-- `float(value)` on a decoded JSON value: numbers pass through, strings
re-parse, booleans coerce to 0/1, `null` raises `TypeError`. -/
def jvalToFloat : JVal → Option ℚ
  | .jnum q => some q
  | .jstr s => pyFloat s
  | .jbool b => some (if b then 1 else 0)
  | .jnull => none

/-- Python `f"{value}"` for a decoded JSON value as it appears in the
invalid-numeric-value message.  A number never produces that message
(`float` accepts every JSON number), so its rendering is irrelevant. -/
def jvalStr : JVal → String
  | .jnum _ => ""
  | .jstr s => s
  | .jbool b => if b then "True" else "False"
  | .jnull => "None"

/-- JSON whitespace. -/
def skipWs (cs : List Char) : List Char :=
  cs.dropWhile (fun c => c = ' ' || c = '\t' || c = '\n' || c = '\r')

/-- A JSON string literal body after the opening quote; escapes are not
modelled (no catalog id or template value contains one). -/
def parseJString (cs : List Char) : Option (String × List Char) :=
  let sp := cs.span (fun c => !(c = '"' || c = '\\'))
  match sp.2 with
  | '"' :: r => some (sp.1.asString, r)
  | _ => none

/-- Characters a JSON number token may contain. -/
def isNumChar (c : Char) : Bool :=
  c.isDigit || c = '-' || c = '+' || c = '.' || c = 'e' || c = 'E'

/-- One JSON scalar value. -/
def parseJVal (cs : List Char) : Option (JVal × List Char) :=
  match cs with
  | [] => none
  | c :: rest =>
    if c = '"' then (parseJString rest).map (fun p => (.jstr p.1, p.2))
    else if c = 't' then
      match rest with
      | 'r' :: 'u' :: 'e' :: r => some (.jbool true, r)
      | _ => none
    else if c = 'f' then
      match rest with
      | 'a' :: 'l' :: 's' :: 'e' :: r => some (.jbool false, r)
      | _ => none
    else if c = 'n' then
      match rest with
      | 'u' :: 'l' :: 'l' :: r => some (.jnull, r)
      | _ => none
    else
      let sp := cs.span isNumChar
      if sp.1 = [] then none
      else
        match pyFloat sp.1.asString with
        | none => none
        | some q => some (.jnum q, sp.2)

/-- The members of a flat JSON object, positioned after the opening brace;
`fuel` is an upper bound on the remaining length. -/
def parseJPairs (fuel : ℕ) (cs : List Char) : Option (List (String × JVal)) :=
  match fuel with
  | 0 => none
  | fuel + 1 =>
    match skipWs cs with
    | c :: rest =>
      if c = '"' then
        match parseJString rest with
        | none => none
        | some (key, r1) =>
          match skipWs r1 with
          | ':' :: r2 =>
            match parseJVal (skipWs r2) with
            | none => none
            | some (v, r3) =>
              match skipWs r3 with
              | ',' :: r4 => (parseJPairs fuel r4).map (fun ps => (key, v) :: ps)
              | c2 :: r4 =>
                if c2 = rbrace then
                  if skipWs r4 = [] then some [(key, v)] else none
                else none
              | [] => none
          | _ => none
      else none
    | [] => none

/-- `json.loads` on flat objects, returning the member list in document
order (`none` models `json.JSONDecodeError`, including trailing garbage). -/
def jsonLoads (s : String) : Option (List (String × JVal)) :=
  match skipWs s.toList with
  | c :: rest =>
    if c = lbrace then
      match skipWs rest with
      | c2 :: r2 =>
        if c2 = rbrace then (if skipWs r2 = [] then some [] else none)
        else parseJPairs (rest.length + 1) rest
      | [] => none
    else none
  | [] => none

/-- Python dict construction from decoded JSON members (duplicate keys:
last occurrence wins, first position kept). -/
def dictOfPairs (raw : List (String × JVal)) : List (String × JVal) :=
  raw.foldl (fun d p => insertKV p.1 p.2 d) []

/-- `BiomarkerInputParser._check_missing_biomarkers` (input_parser.py lines
181-187). -/
def missingBiomarkers (parsed : List (String × ℚ)) : List String :=
  BIOMARKER_ORDER.filter (fun i => (lookupKV i parsed).isNone)

/-- Python `", ".join`. -/
def joinComma : List String → String
  | [] => ""
  | [x] => x
  | x :: xs => x ++ ", " ++ joinComma xs

/-- The outcome of one iteration of the `_parse_key_value` loop body
(input_parser.py lines 110-137) on one raw pair token. -/
inductive PairOutcome where
  | skip
  | bind (key nk : String) (v : ℚ)
  | unknown (key : String)
  | badValue (key value : String)
deriving DecidableEq

/-- The tail of a `_parse_key_value` iteration once a pair has been split:
strip key and value, normalize the key, parse the value. -/
def classifyKVParts (kv : String × String) : PairOutcome :=
  let key := pyStrip kv.1
  let value := pyStrip kv.2
  match normalizeBiomarkerName key with
  | none => .unknown key
  | some nk =>
    match pyFloat value with
    | none => .badValue key value
    | some q => .bind key nk q

/-- One `_parse_key_value` loop iteration: strip, skip empties and
separator-free tokens, split at the first `=` (or else `:`), then process
the key/value pair. -/
def classifyPair (p : String) : PairOutcome :=
  let p := pyStrip p
  if p = "" then .skip
  else
    match
      (if pyContainsChar p '=' then pySplitFirst p '='
       else if pyContainsChar p ':' then pySplitFirst p ':'
       else none) with
    | none => .skip
    | some kv => classifyKVParts kv

/-- The `_parse_key_value` loop (input_parser.py lines 109-144): bind pairs
left to right into the result dict (later occurrences overwrite), fail on
the first unknown key or invalid value, then run the missing-biomarker
check. -/
def kvLoop : List String → List (String × ℚ) →
    Option (List (String × ℚ)) × List String
  | [], acc =>
    match missingBiomarkers acc with
    | [] => (some acc, [])
    | ms => (none, ["Missing required biomarkers: " ++ joinComma ms])
  | p :: rest, acc =>
    match classifyPair p with
    | .skip => kvLoop rest acc
    | .bind _ nk q => kvLoop rest (insertKV nk q acc)
    | .unknown key => (none, ["Unknown biomarker: " ++ key])
    | .badValue key value =>
      (none, ["Invalid numeric value for " ++ key ++ ": " ++ value])

/-- `BiomarkerInputParser._parse_key_value` (input_parser.py lines
104-144). -/
def parseKeyValue (text : String) : Option (List (String × ℚ)) × List String :=
  kvLoop (pySplitOn (fun c => c = ',' || c = '\n') text) []

/-- The outcome of one `_parse_json` loop iteration (input_parser.py lines
84-92) on one dict member. -/
inductive JEntryOutcome where
  | jbind (nk : String) (v : ℚ)
  | junknown (key : String)
  | jbad (key : String) (value : JVal)
deriving DecidableEq

/-- One `_parse_json` loop iteration: normalize the key, coerce the value. -/
def classifyJEntry (key : String) (v : JVal) : JEntryOutcome :=
  match normalizeBiomarkerName key with
  | none => .junknown key
  | some nk =>
    match jvalToFloat v with
    | none => .jbad key v
    | some q => .jbind nk q

/-- The `_parse_json` normalization loop plus missing-biomarker check
(input_parser.py lines 83-99). -/
def jsonLoop : List (String × JVal) → List (String × ℚ) →
    Option (List (String × ℚ)) × List String
  | [], acc =>
    match missingBiomarkers acc with
    | [] => (some acc, [])
    | ms => (none, ["Missing required biomarkers: " ++ joinComma ms])
  | e :: rest, acc =>
    match classifyJEntry e.1 e.2 with
    | .jbind nk q => jsonLoop rest (insertKV nk q acc)
    | .junknown key => (none, ["Unknown biomarker: " ++ key])
    | .jbad key v =>
      (none, ["Invalid numeric value for " ++ key ++ ": " ++ jvalStr v])

/-- `BiomarkerInputParser._parse_json` (input_parser.py lines 74-102); a
decode failure message carries `str(e)` detail that is not modelled. -/
def parseJsonText (text : String) : Option (List (String × ℚ)) × List String :=
  match jsonLoads text with
  | none => (none, ["Invalid JSON format"])
  | some raw => jsonLoop (dictOfPairs raw) []

/-- The `_parse_csv` conversion loop (input_parser.py lines 156-163), over
`(biomarker_id, token)` pairs with 0-based position `i`. -/
def csvLoop (i : ℕ) : List (String × String) → List (String × ℚ) →
    Option (List (String × ℚ)) × List String
  | [], acc => (some acc, [])
  | e :: rest, acc =>
    match pyFloat e.2 with
    | none =>
      (none, ["Invalid numeric value at position " ++ toString (i + 1) ++
        " (" ++ e.1 ++ "): " ++ e.2])
    | some q => csvLoop (i + 1) rest (insertKV e.1 q acc)

/-- `BiomarkerInputParser._parse_csv` (input_parser.py lines 146-165). -/
def parseCsv (text : String) : Option (List (String × ℚ)) × List String :=
  let values := (pySplitOn (fun c => c = ',') text).map pyStrip
  if values.length ≠ BIOMARKER_ORDER.length then
    (none, ["CSV format requires exactly " ++ toString BIOMARKER_ORDER.length ++
      " values. Got " ++ toString values.length ++ ". Order: " ++
      joinComma BIOMARKER_ORDER])
  else csvLoop 0 (BIOMARKER_ORDER.zip values) []

/-- `BiomarkerInputParser.parse` (input_parser.py lines 47-72): strip, then
dispatch on structural markers — leading brace, `=`/`:`, comma. -/
def parse (text : String) : Option (List (String × ℚ)) × List String :=
  let t := pyStrip text
  if startsWithLBrace t then parseJsonText t
  else if pyContainsChar t '=' || pyContainsChar t ':' then parseKeyValue t
  else if pyContainsChar t ',' then parseCsv t
  else (none,
    ["Could not parse input format. Please use JSON, key=value, or CSV format."])

/-- The JSON template body lines (each `  "id": 0.0`, comma-newline
separated — the source appends `,\n` to every line and strips the trailing
`,\n` before closing). -/
def jsonTemplateLines : List String → String
  | [] => ""
  | [i] => "  \"" ++ i ++ "\": 0.0"
  | i :: rest => "  \"" ++ i ++ "\": 0.0,\n" ++ jsonTemplateLines rest

/-- `BiomarkerInputParser.get_template` (input_parser.py lines 189-214). -/
def getTemplate (formatType : String) : String :=
  if formatType = "json" then
    "\x7b\n" ++ jsonTemplateLines BIOMARKER_ORDER ++ "\n\x7d"
  else if formatType = "key_value" then
    joinComma (BIOMARKER_ORDER.map (fun i => i ++ "=0.0"))
  else if formatType = "csv" then
    joinComma (BIOMARKER_ORDER.map (fun _ => "0.0"))
  else "Unknown format type"

/-- The bind-only semantics of the `_parse_key_value` loop (what the loop
computes when every token is skipped or cleanly bound). -/
def kvBinds : List String → List (String × ℚ) → List (String × ℚ)
  | [], acc => acc
  | p :: rest, acc =>
    match classifyPair p with
    | .bind _ nk v => kvBinds rest (insertKV nk v acc)
    | _ => kvBinds rest acc

/-- Whether a loop outcome neither fails nor is an error (used to state
cleanliness hypotheses decidably without touching the rational payload). -/
def isCleanOutcome : PairOutcome → Bool
  | .skip => true
  | .bind _ _ _ => true
  | _ => false

/-- A pair-syntax input that binds hemoglobin twice: the full template
followed by a second hemoglobin pair. -/
def c10Text : String := getTemplate "key_value" ++ ", hemoglobin=9.9"

/-- The tokens `re.split` produces for `c10Text` before the final
duplicate pair. -/
def c10Prefix : List String :=
  "hemoglobin=0.0" :: (BIOMARKER_ORDER.drop 1).map (fun i => " " ++ i ++ "=0.0")

/-- A two-biomarker catalog used to instantiate the scaler theorems. -/
def sampleCatalog : List Biomarker :=
  [⟨"hemoglobin", "Hemoglobin", "HGB", "g/dL", 12, 17, 5, 20⟩,
   ⟨"lactate", "Lactate", "LACT", "mmol/L", 0.5, 2.2, 0.3, 15⟩]

/-- A raw value map for `sampleCatalog`. -/
def sampleRaw : RawValues :=
  fun k => if k = "hemoglobin" then some 14 else if k = "lactate" then some 1 else none

/-- A single biomarker with critical range `[5, 20]`. -/
def sampleBio : Biomarker := ⟨"hemoglobin", "Hemoglobin", "HGB", "g/dL", 12, 17, 5, 20⟩

/-- A biomarker whose critical span `H − L` is zero. -/
def zeroSpanBio : Biomarker := ⟨"broken", "Broken", "BRK", "u", 0, 2, 1, 1⟩

theorem scaleValue_fst_nonneg (b : Biomarker) (raw : ℚ) : 0 ≤ (scaleValue b raw).1 :=
  le_max_left 0 _

theorem scaleValue_fst_le_one (b : Biomarker) (raw : ℚ) : (scaleValue b raw).1 ≤ 1 :=
  max_le (by norm_num) (min_le_left 1 _)

theorem scaleAllGo_complete (rv : RawValues) :
    ∀ cfg : List Biomarker, (∀ b ∈ cfg, (rv b.id).isSome) →
      ∃ warns, scaleAllGo rv cfg =
        some (cfg.map (fun b => (scaleValue b ((rv b.id).getD 0)).1), warns) := by
  intro cfg
  induction cfg with
  | nil => intro _; exact ⟨[], rfl⟩
  | cons b rest ih =>
    intro hc
    obtain ⟨raw, hraw⟩ := Option.isSome_iff_exists.mp (hc b (List.mem_cons_self b rest))
    obtain ⟨warns, hw⟩ := ih (fun x hx => hc x (List.mem_cons_of_mem b hx))
    refine ⟨(scaleValue b raw).2 ++ warns, ?_⟩
    simp only [scaleAllGo, hraw, hw, List.map_cons]
    simp [hraw]

/-- C2: for a complete raw value map (and a well-formed catalog: distinct
ids, nonzero critical spans), `scale_all` succeeds and its scaled vector
has exactly one entry per catalog biomarker, in canonical catalog order,
each entry lying in `[0, 1]`. -/
theorem scaleAll_complete_spec (cfg : List Biomarker) (rv : RawValues)
    (hids : (cfg.map Biomarker.id).Nodup)
    (hspan : ∀ b ∈ cfg, b.criticalLow < b.criticalHigh)
    (hcomplete : ∀ b ∈ cfg, (rv b.id).isSome) :
    ∃ scaled warns, scaleAll ⟨cfg⟩ rv = some (scaled, warns) ∧
      scaled = cfg.map (fun b => (scaleValue b ((rv b.id).getD 0)).1) ∧
      scaled.length = cfg.length ∧
      ∀ q ∈ scaled, 0 ≤ q ∧ q ≤ 1 := by
  obtain ⟨warns, hw⟩ := scaleAllGo_complete rv cfg hcomplete
  refine ⟨_, warns, hw, rfl, by simp, ?_⟩
  intro q hq
  obtain ⟨b, _, rfl⟩ := List.mem_map.mp hq
  exact ⟨scaleValue_fst_nonneg _ _, scaleValue_fst_le_one _ _⟩

theorem scaleAll_complete_spec_witness :
    ((sampleCatalog.map Biomarker.id).Nodup ∧
      (∀ b ∈ sampleCatalog, b.criticalLow < b.criticalHigh) ∧
      (∀ b ∈ sampleCatalog, (sampleRaw b.id).isSome)) ∧
    ∃ scaled warns, scaleAll ⟨sampleCatalog⟩ sampleRaw = some (scaled, warns) ∧
      scaled = sampleCatalog.map (fun b => (scaleValue b ((sampleRaw b.id).getD 0)).1) ∧
      scaled.length = sampleCatalog.length ∧
      ∀ q ∈ scaled, 0 ≤ q ∧ q ≤ 1 := by
  refine ⟨⟨?_, ?_, ?_⟩, ?_⟩
  · decide
  · intro b hb
    simp only [sampleCatalog, List.mem_cons, List.not_mem_nil, or_false] at hb
    rcases hb with rfl | rfl <;> norm_num
  · intro b hb
    simp only [sampleCatalog, List.mem_cons, List.not_mem_nil, or_false] at hb
    rcases hb with rfl | rfl <;> simp [sampleRaw]
  · refine scaleAll_complete_spec sampleCatalog sampleRaw (by decide) ?_ ?_
    · intro b hb
      simp only [sampleCatalog, List.mem_cons, List.not_mem_nil, or_false] at hb
      rcases hb with rfl | rfl <;> norm_num
    · intro b hb
      simp only [sampleCatalog, List.mem_cons, List.not_mem_nil, or_false] at hb
      rcases hb with rfl | rfl <;> simp [sampleRaw]

/-- C3: with a valid critical span `L < H`, a raw value of exactly `L`
scales to `0` and exactly `H` scales to `1`, neither boundary value emits
a critical-breach warning, and a critical-breach warning is emitted for a
raw value if and only if it is strictly below `L` or strictly above `H`. -/
theorem scaleValue_boundary_spec (b : Biomarker)
    (h : b.criticalLow < b.criticalHigh) :
    (scaleValue b b.criticalLow).1 = 0 ∧
    (scaleValue b b.criticalHigh).1 = 1 ∧
    (scaleValue b b.criticalLow).2.any Warning.isCritical = false ∧
    (scaleValue b b.criticalHigh).2.any Warning.isCritical = false ∧
    ∀ raw : ℚ, (scaleValue b raw).2.any Warning.isCritical = true ↔
      (raw < b.criticalLow ∨ b.criticalHigh < raw) := by
  have hspan : b.criticalHigh - b.criticalLow ≠ 0 :=
    sub_ne_zero_of_ne (ne_of_gt h)
  have hany : ∀ raw : ℚ, (scaleValue b raw).2.any Warning.isCritical = true ↔
      (raw < b.criticalLow ∨ b.criticalHigh < raw) := by
    intro raw
    simp only [scaleValue, List.any_append, Bool.or_eq_true, List.any_eq_true]
    constructor
    · rintro (⟨w, hw, hcrit⟩ | ⟨w, hw, hcrit⟩)
      · split_ifs at hw <;>
          simp_all [Warning.isCritical]
      · split_ifs at hw with h1 h2 <;> simp_all
    · rintro (hlt | hgt)
      · refine Or.inr ⟨⟨b.id, .criticallyLow⟩, ?_, rfl⟩
        simp [hlt]
      · refine Or.inr ⟨⟨b.id, .criticallyHigh⟩, ?_, rfl⟩
        have hnlt : ¬ raw < b.criticalLow := by
          exact not_lt.mpr (le_of_lt (h.trans hgt))
        simp [hnlt, hgt]
  refine ⟨?_, ?_, ?_, ?_, hany⟩
  · simp only [scaleValue, sub_self, zero_div]
    norm_num
  · simp only [scaleValue, div_self hspan]
    norm_num
  · rw [Bool.eq_false_iff]
    intro hc
    rcases (hany b.criticalLow).mp hc with h1 | h1
    · exact absurd h1 (lt_irrefl _)
    · exact absurd h1 (not_lt.mpr h.le)
  · rw [Bool.eq_false_iff]
    intro hc
    rcases (hany b.criticalHigh).mp hc with h1 | h1
    · exact absurd h1 (not_lt.mpr h.le)
    · exact absurd h1 (lt_irrefl _)

theorem scaleValue_boundary_spec_witness :
    sampleBio.criticalLow < sampleBio.criticalHigh ∧
    (scaleValue sampleBio sampleBio.criticalLow).1 = 0 ∧
    (scaleValue sampleBio 3).2.any Warning.isCritical = true := by
  have h : sampleBio.criticalLow < sampleBio.criticalHigh := by norm_num [sampleBio]
  have hs := scaleValue_boundary_spec sampleBio h
  refine ⟨h, hs.1, ?_⟩
  refine (hs.2.2.2.2 3).mpr (Or.inl ?_)
  norm_num [sampleBio]

/-- C4 counterexample: the claim says a zero critical span is rejected as a
fatal failure when the catalog is loaded at construction time.  It is not:
`BiomarkerScaler.__init__` performs no validation, so a catalog containing
a zero-span biomarker loads successfully. -/
theorem scalerInit_zeroSpan_counterexample :
    zeroSpanBio ∈ [zeroSpanBio] ∧
    zeroSpanBio.criticalHigh - zeroSpanBio.criticalLow = 0 ∧
    scalerInit [zeroSpanBio] ≠ none := by
  refine ⟨List.mem_singleton_self _, by norm_num [zeroSpanBio], by simp [scalerInit]⟩

/-- C4 amended: construction performs no validation at all — every catalog,
including one with a zero critical span, is accepted, and the loaded state
carries the catalog through to the per-value scaling division unchanged. -/
theorem scalerInit_accepts_every_catalog (cfg : List Biomarker) :
    ∃ st, scalerInit cfg = some st ∧ st.biomarkers = cfg :=
  ⟨⟨cfg⟩, rfl, rfl⟩

theorem lookupKV_insertKV_self (k : String) (v : ℚ) :
    ∀ l, lookupKV k (insertKV k v l) = some v := by
  intro l
  induction l with
  | nil => simp [insertKV, lookupKV]
  | cons p rest ih =>
    obtain ⟨a, b⟩ := p
    by_cases hak : a = k
    · simp [insertKV, hak, lookupKV]
    · simp [insertKV, hak, lookupKV, ih]

theorem lookupKV_insertKV_ne (k k' : String) (v : ℚ) (hne : k' ≠ k) :
    ∀ l, lookupKV k' (insertKV k v l) = lookupKV k' l := by
  intro l
  induction l with
  | nil =>
    simp only [insertKV, lookupKV]
    rw [if_neg (fun h : k = k' => hne h.symm)]
  | cons p rest ih =>
    obtain ⟨a, b⟩ := p
    by_cases hak : a = k
    · subst hak
      simp only [insertKV, if_pos rfl, lookupKV]
      rw [if_neg (fun h : a = k' => hne h.symm), if_neg (fun h : a = k' => hne h.symm)]
    · simp [insertKV, hak, lookupKV, ih]

theorem map_fst_pair (f : String → ℚ) :
    ∀ l : List String, (l.map (fun c => (c, f c))).map Prod.fst = l := by
  intro l
  induction l with
  | nil => rfl
  | cons a rest ih => simp [ih]

theorem insertKV_map_fst_of_mem (k : String) (v : ℚ) :
    ∀ l : List (String × ℚ), k ∈ l.map Prod.fst →
      (insertKV k v l).map Prod.fst = l.map Prod.fst := by
  intro l
  induction l with
  | nil => intro h; simp at h
  | cons p rest ih =>
    obtain ⟨a, b⟩ := p
    intro h
    by_cases hak : a = k
    · simp [insertKV, hak]
    · rw [List.map_cons] at h
      rcases List.mem_cons.mp h with h' | h'
      · exact absurd h'.symm hak
      · simp [insertKV, hak, ih h']

theorem lookupKV_map_pair (f : String → ℚ) (c : String) :
    ∀ l : List String, c ∈ l →
      lookupKV c (l.map (fun x => (x, f x))) = some (f c) := by
  intro l
  induction l with
  | nil => intro h; simp at h
  | cons a rest ih =>
    intro h
    by_cases hac : a = c
    · subst hac; simp [lookupKV]
    · rcases List.mem_cons.mp h with h' | h'
      · exact absurd h'.symm hac
      · simp [lookupKV, hac, ih h']

theorem list_map_div_sum (f : String → ℚ) (S : ℚ) :
    ∀ l : List String, (l.map (fun c => f c / S)).sum = (l.map f).sum / S := by
  intro l
  induction l with
  | nil => simp
  | cons a rest ih => simp [ih, add_div]

theorem computeProbabilities_keys (catOrder : List String) (rv : RawValues)
    (hnormal : "normal" ∈ catOrder) :
    (computeProbabilities catOrder rv).map Prod.fst = catOrder := by
  by_cases hS : 0 < totalScore catOrder rv
  · simp only [computeProbabilities, if_pos hS]
    exact map_fst_pair _ catOrder
  · simp only [computeProbabilities, if_neg hS]
    rw [insertKV_map_fst_of_mem _ _ _
      (by rw [map_fst_pair (fun _ => 0) catOrder]; exact hnormal)]
    exact map_fst_pair _ catOrder

/-- C1: for every raw value map, `_compute_probabilities` keeps exactly the
catalog's categories; when the total score `S` is positive every category's
probability is its score divided by `S` and the distribution sums to 1;
when `S` is zero the result assigns exactly 1.0 to the designated "normal"
category and 0.0 to every other category. -/
theorem computeProbabilities_spec (catOrder : List String) (rv : RawValues)
    (hnormal : "normal" ∈ catOrder) (hnodup : catOrder.Nodup)
    (hrules : ∀ c ∈ ruleCategoryIds, c ∈ catOrder) :
    (computeProbabilities catOrder rv).map Prod.fst = catOrder ∧
    (0 < totalScore catOrder rv →
      (∀ c ∈ catOrder,
        lookupKV c (computeProbabilities catOrder rv) =
          some (catScore rv c / totalScore catOrder rv)) ∧
      ((computeProbabilities catOrder rv).map Prod.snd).sum = 1) ∧
    (totalScore catOrder rv = 0 →
      ∀ c ∈ catOrder,
        lookupKV c (computeProbabilities catOrder rv) =
          some (if c = "normal" then 1 else 0)) := by
  refine ⟨computeProbabilities_keys catOrder rv hnormal, ?_, ?_⟩
  · intro hS
    refine ⟨?_, ?_⟩
    · intro c hc
      simp only [computeProbabilities, if_pos hS]
      exact lookupKV_map_pair _ c catOrder hc
    · simp only [computeProbabilities, if_pos hS, List.map_map]
      have hcomp : (Prod.snd ∘ fun c => (c, catScore rv c / totalScore catOrder rv)) =
          fun c => catScore rv c / totalScore catOrder rv := rfl
      rw [hcomp, list_map_div_sum]
      exact div_self (ne_of_gt hS)
  · intro hS c hc
    have hnpos : ¬ 0 < totalScore catOrder rv := by rw [hS]; exact lt_irrefl 0
    simp only [computeProbabilities, if_neg hnpos]
    by_cases hc' : c = "normal"
    · subst hc'
      rw [lookupKV_insertKV_self, if_pos rfl]
    · rw [lookupKV_insertKV_ne _ _ _ hc', if_neg hc']
      exact lookupKV_map_pair (fun _ => 0) c catOrder hc

theorem computeProbabilities_spec_witness :
    ("normal" ∈ cat9 ∧ cat9.Nodup ∧ (∀ c ∈ ruleCategoryIds, c ∈ cat9) ∧
      totalScore cat9 rvNominal = 0) ∧
    lookupKV "normal" (computeProbabilities cat9 rvNominal) = some 1 := by
  have h0 : totalScore cat9 rvNominal = 0 := by
    norm_num +decide [totalScore, cat9, catScore, sepsisScore,
      cardiacEventScore, renalFailureScore, liverDiseaseScore,
      metabolicDisorderScore, coagulopathyScore, anemiaScore, infectionScore,
      rvGet, rvNominal, nominalList, lookupKV, max_def]
  have happly := computeProbabilities_spec cat9 rvNominal (by decide) (by decide)
    (by decide)
  have hlook := (happly.2.2 h0) "normal" (by decide)
  exact ⟨⟨by decide, by decide, by decide, h0⟩, by simpa using hlook⟩

theorem pythonMaxGo_mem (best : String × ℚ) :
    ∀ l, pythonMaxGo best l ∈ best :: l := by
  intro l
  induction l generalizing best with
  | nil => simp [pythonMaxGo]
  | cons p rest ih =>
    by_cases h : best.2 < p.2
    · simp only [pythonMaxGo, if_pos h]
      exact List.mem_cons_of_mem best (ih p)
    · simp only [pythonMaxGo, if_neg h]
      rcases List.mem_cons.mp (ih best) with h' | h'
      · rw [h']; exact List.mem_cons_self _ _
      · exact List.mem_cons_of_mem _ (List.mem_cons_of_mem _ h')

theorem pythonMaxGo_le (best : String × ℚ) :
    ∀ l, ∀ p ∈ best :: l, p.2 ≤ (pythonMaxGo best l).2 := by
  intro l
  induction l generalizing best with
  | nil =>
    intro p hp
    rw [List.mem_singleton.mp hp]
    exact le_refl _
  | cons q rest ih =>
    intro p hp
    by_cases h : best.2 < q.2
    · simp only [pythonMaxGo, if_pos h]
      rcases List.mem_cons.mp hp with h' | hp'
      · rw [h']
        exact le_of_lt (lt_of_lt_of_le h (ih q q (List.mem_cons_self q rest)))
      · exact ih q p hp'
    · simp only [pythonMaxGo, if_neg h]
      rcases List.mem_cons.mp hp with h' | hp'
      · rw [h']
        exact ih best best (List.mem_cons_self _ _)
      · rcases List.mem_cons.mp hp' with h'' | hp''
        · rw [h'']
          exact le_trans (not_lt.mp h) (ih best best (List.mem_cons_self _ _))
        · exact ih best p (List.mem_cons_of_mem _ hp'')

theorem pythonMaxGo_eq_or_lt (best : String × ℚ) :
    ∀ l, pythonMaxGo best l = best ∨ best.2 < (pythonMaxGo best l).2 := by
  intro l
  induction l generalizing best with
  | nil => exact Or.inl rfl
  | cons q rest ih =>
    by_cases h : best.2 < q.2
    · simp only [pythonMaxGo, if_pos h]
      rcases ih q with h' | h'
      · rw [h']; exact Or.inr h
      · exact Or.inr (lt_trans h h')
    · simp only [pythonMaxGo, if_neg h]
      exact ih best

theorem pythonMaxGo_find (best : String × ℚ) :
    ∀ l, (best :: l).find?
        (fun p => decide ((pythonMaxGo best l).2 ≤ p.2)) = some (pythonMaxGo best l) := by
  intro l
  induction l generalizing best with
  | nil =>
    simp [pythonMaxGo, List.find?]
  | cons q rest ih =>
    by_cases h : best.2 < q.2
    · simp only [pythonMaxGo, if_pos h]
      have hq : q.2 ≤ (pythonMaxGo q rest).2 :=
        pythonMaxGo_le q rest q (List.mem_cons_self q rest)
      have hbest : ¬ ((pythonMaxGo q rest).2 ≤ best.2) :=
        not_le.mpr (lt_of_lt_of_le h hq)
      rw [List.find?_cons_of_neg _ (by simpa using hbest)]
      exact ih q
    · simp only [pythonMaxGo, if_neg h]
      have hbg : best.2 ≤ (pythonMaxGo best rest).2 :=
        pythonMaxGo_le best rest best (List.mem_cons_self _ _)
      by_cases hgb : (pythonMaxGo best rest).2 ≤ best.2
      · have heq : pythonMaxGo best rest = best := by
          rcases pythonMaxGo_eq_or_lt best rest with h' | h'
          · exact h'
          · exact absurd h' (not_lt.mpr hgb)
        rw [List.find?_cons_of_pos _ (by simpa using hgb), heq]
      · have hqf : ¬ ((pythonMaxGo best rest).2 ≤ q.2) :=
          fun hc => hgb (le_trans hc (not_lt.mp h))
        rw [List.find?_cons_of_neg _ (by simpa using hgb),
          List.find?_cons_of_neg _ (by simpa using hqf)]
        have := ih best
        rw [List.find?_cons_of_neg _ (by simpa using hgb)] at this
        exact this

theorem lookupKV_eq_of_mem_nodup :
    ∀ l : List (String × ℚ), (l.map Prod.fst).Nodup →
      ∀ p ∈ l, lookupKV p.1 l = some p.2 := by
  intro l
  induction l with
  | nil => intro _ p hp; simp at hp
  | cons q rest ih =>
    intro hnd p hp
    rw [List.map_cons, List.nodup_cons] at hnd
    rcases List.mem_cons.mp hp with rfl | hp'
    · simp [lookupKV]
    · have hne : q.1 ≠ p.1 := by
        intro hc
        exact hnd.1 (hc ▸ List.mem_map_of_mem Prod.fst hp')
      simp only [lookupKV, if_neg hne]
      exact ih hnd.2 p hp'

theorem findBio_eq_id : ∀ (cat : List Biomarker) (i : String) (b : Biomarker),
    findBio cat i = some b → b.id = i := by
  intro cat
  induction cat with
  | nil => intro i b h; simp [findBio] at h
  | cons x rest ih =>
    intro i b h
    by_cases hx : x.id = i
    · simp only [findBio, if_pos hx] at h
      rw [← Option.some_inj.mp h]; exact hx
    · simp only [findBio, if_neg hx] at h
      exact ih i b h

theorem keyBiomarkerEntries_sound (cat : List Biomarker) (rv : RawValues) :
    ∀ ids : List String, (∀ i ∈ ids, (rv i).isSome → (findBio cat i).isSome) →
      ∃ es, keyBiomarkerEntries cat rv ids = some es ∧
        ∀ x ∈ es, ∃ b raw, findBio cat x.id = some b ∧ rv x.id = some raw ∧
          x = mkKeyBiomarker b raw := by
  intro ids
  induction ids with
  | nil => intro _; exact ⟨[], rfl, by simp⟩
  | cons i rest ih =>
    intro h
    obtain ⟨es, hes, hmem⟩ := ih (fun j hj => h j (List.mem_cons_of_mem _ hj))
    cases hrv : rv i with
    | none =>
      refine ⟨es, ?_, hmem⟩
      simp only [keyBiomarkerEntries, hrv, hes]
    | some raw =>
      have hf : (findBio cat i).isSome :=
        h i (List.mem_cons_self _ _) (by rw [hrv]; rfl)
      obtain ⟨b, hb⟩ := Option.isSome_iff_exists.mp hf
      have hbid : b.id = i := findBio_eq_id cat i b hb
      refine ⟨mkKeyBiomarker b raw :: es, ?_, ?_⟩
      · simp only [keyBiomarkerEntries, hrv, hb, hes]
      · intro x hx
        rcases List.mem_cons.mp hx with rfl | hx'
        · refine ⟨b, raw, ?_, ?_, rfl⟩
          · show findBio cat (mkKeyBiomarker b raw).id = some b
            have : (mkKeyBiomarker b raw).id = i := hbid
            rw [this]; exact hb
          · show rv (mkKeyBiomarker b raw).id = some raw
            have : (mkKeyBiomarker b raw).id = i := hbid
            rw [this]; exact hrv
        · exact hmem x hx'

/-- C5 amended: `predict` succeeds (on a well-formed catalog), the winning
category is the first element of the probability dict attaining the maximal
probability — argmax with ties broken by catalog iteration order — and the
reported confidence is the winning probability rounded to three decimal
places. -/
theorem predict_argmax_tiebreak_spec (catOrder : List String)
    (cat : List Biomarker) (rv : RawValues)
    (hnormal : "normal" ∈ catOrder) (hnodup : catOrder.Nodup)
    (hrules : ∀ c ∈ ruleCategoryIds, c ∈ catOrder)
    (hbio : ∀ i, (rv i).isSome → (findBio cat i).isSome) :
    ∃ out v,
      predict catOrder cat rv = some out ∧
      (out.prediction, v) ∈ computeProbabilities catOrder rv ∧
      (∀ p ∈ computeProbabilities catOrder rv, p.2 ≤ v) ∧
      (computeProbabilities catOrder rv).find? (fun p => decide (v ≤ p.2)) =
        some (out.prediction, v) ∧
      out.confidence = pyRound 3 v := by
  have hkeys := computeProbabilities_keys catOrder rv hnormal
  have hnodupkeys : ((computeProbabilities catOrder rv).map Prod.fst).Nodup := by
    rw [hkeys]; exact hnodup
  cases hp : computeProbabilities catOrder rv with
  | nil =>
    exfalso
    rw [hp] at hkeys
    simp only [List.map_nil] at hkeys
    rw [← hkeys] at hnormal
    exact List.not_mem_nil _ hnormal
  | cons p rest =>
    rw [hp] at hnodupkeys
    have hmem : pythonMaxGo p rest ∈ p :: rest := pythonMaxGo_mem p rest
    have hle := pythonMaxGo_le p rest
    have hfind := pythonMaxGo_find p rest
    have hlook : lookupKV (pythonMaxGo p rest).1 (p :: rest) =
        some (pythonMaxGo p rest).2 :=
      lookupKV_eq_of_mem_nodup _ hnodupkeys _ hmem
    obtain ⟨kbs, hkbs, _⟩ := keyBiomarkerEntries_sound cat rv
      (relevanceMap (pythonMaxGo p rest).1) (fun i _ hi => hbio i hi)
    have hid : identifyKeyBiomarkers cat rv (pythonMaxGo p rest).1 =
        some ((sortKeyBiomarkers kbs).take 5) := by
      simp only [identifyKeyBiomarkers, hkbs]
      rfl
    refine ⟨⟨(pythonMaxGo p rest).1, pyRound 3 (pythonMaxGo p rest).2,
      (sortKeyBiomarkers kbs).take 5⟩, (pythonMaxGo p rest).2, ?_, ?_, ?_, ?_, rfl⟩
    · simp only [predict, hp, pythonMax, hlook, hid]
    · exact hmem
    · exact hle
    · exact hfind

theorem predict_argmax_tiebreak_spec_witness :
    ("normal" ∈ cat9 ∧ cat9.Nodup ∧ (∀ c ∈ ruleCategoryIds, c ∈ cat9) ∧
      (∀ i, (c5Raw i).isSome → (findBio c6Catalog i).isSome)) ∧
    (∃ out v,
      predict cat9 c6Catalog c5Raw = some out ∧
      (out.prediction, v) ∈ computeProbabilities cat9 c5Raw ∧
      (∀ p ∈ computeProbabilities cat9 c5Raw, p.2 ≤ v) ∧
      (computeProbabilities cat9 c5Raw).find? (fun p => decide (v ≤ p.2)) =
        some (out.prediction, v) ∧
      out.confidence = pyRound 3 v) := by
  have hbio : ∀ i, (c5Raw i).isSome → (findBio c6Catalog i).isSome := by
    intro i hi
    by_cases h : i = "procalcitonin"
    · subst h; decide
    · exfalso
      simp only [c5Raw, if_neg h] at hi
      exact Bool.noConfusion hi
  exact ⟨⟨by decide, by decide, by decide, hbio⟩,
    predict_argmax_tiebreak_spec cat9 c6Catalog c5Raw (by decide) (by decide)
      (by decide) hbio⟩

/-- C5 counterexample: with only procalcitonin elevated (3.0) the winning
category is "anemia" with probability 5/14, but the prediction result
reports `round(5/14, 3) = 0.357` as confidence, which is not exactly the
winning category's probability. -/
theorem predict_confidence_rounding_counterexample :
    (predict cat9 c6Catalog c5Raw).map PredictOut.prediction = some "anemia" ∧
    lookupKV "anemia" (computeProbabilities cat9 c5Raw) = some (5/14) ∧
    (predict cat9 c6Catalog c5Raw).map PredictOut.confidence = some (357/1000) ∧
    (357/1000 : ℚ) ≠ 5/14 := by
  have hsep : sepsisScore c5Raw = 0.6 := by
    norm_num +decide [sepsisScore, rvGet, c5Raw]
  have hcard : cardiacEventScore c5Raw = 0 := by
    norm_num +decide [cardiacEventScore, rvGet, c5Raw]
  have hren : renalFailureScore c5Raw = 0.1 := by
    norm_num +decide [renalFailureScore, rvGet, c5Raw, max_def]
  have hliv : liverDiseaseScore c5Raw = 0.2 := by
    norm_num +decide [liverDiseaseScore, rvGet, c5Raw]
  have hmet : metabolicDisorderScore c5Raw = 0.4 := by
    norm_num +decide [metabolicDisorderScore, rvGet, c5Raw]
  have hcoag : coagulopathyScore c5Raw = 0.3 := by
    norm_num +decide [coagulopathyScore, rvGet, c5Raw]
  have hane : anemiaScore c5Raw = 1 := by
    norm_num +decide [anemiaScore, rvGet, c5Raw]
  have hinf : infectionScore c5Raw = 0.2 := by
    norm_num +decide [infectionScore, rvGet, c5Raw]
  have htot : totalScore cat9 c5Raw = 2.8 := by
    simp +decide only [totalScore, cat9, List.map, catScore, List.sum_cons,
      List.sum_nil]
    rw [hsep, hcard, hren, hliv, hmet, hcoag, hane, hinf]
    norm_num
  have hprobs : computeProbabilities cat9 c5Raw =
      [("sepsis", 3/14), ("cardiac_event", 0), ("renal_failure", 1/28),
       ("liver_disease", 1/14), ("metabolic_disorder", 1/7),
       ("coagulopathy", 3/28), ("anemia", 5/14), ("infection", 1/14),
       ("normal", 0)] := by
    simp only [computeProbabilities]
    rw [htot, if_pos (by norm_num : (0 : ℚ) < 2.8)]
    simp +decide only [cat9, List.map, catScore]
    rw [hsep, hcard, hren, hliv, hmet, hcoag, hane, hinf]
    norm_num
  have hwin : pythonMax (computeProbabilities cat9 c5Raw) =
      some ("anemia", 5/14) := by
    rw [hprobs]
    norm_num [pythonMax, pythonMaxGo]
  have hconf : pyRound 3 (5/14) = 357/1000 := by
    have hfl : (⌊(5 : ℚ)/14 * 10 ^ 3⌋ : ℤ) = 357 := by norm_num
    norm_num [pyRound, roundHalfEven, hfl]
  have hkbs : identifyKeyBiomarkers c6Catalog c5Raw "anemia" = some [] := by
    simp +decide [identifyKeyBiomarkers, relevanceMap, keyBiomarkerEntries,
      c5Raw, sortKeyBiomarkers, List.insertionSort]
  have hlk : lookupKV "anemia" (computeProbabilities cat9 c5Raw) =
      some (5/14) := by
    rw [hprobs]
    simp +decide [lookupKV]
  have hpred : predict cat9 c6Catalog c5Raw =
      some ⟨"anemia", pyRound 3 (5/14), []⟩ := by
    simp only [predict, hwin, hlk, hkbs]
  refine ⟨?_, ?_, ?_, by norm_num⟩
  · rw [hpred]; rfl
  · rw [hprobs]
    simp +decide [lookupKV]
  · rw [hpred]
    simp [hconf]

theorem filter_orderedInsert_dev (a : KeyBiomarker) (d : ℚ) :
    ∀ l : List KeyBiomarker,
      (List.orderedInsert devGE a l).filter (fun x => decide (x.deviation = d)) =
        if a.deviation = d
        then a :: l.filter (fun x => decide (x.deviation = d))
        else l.filter (fun x => decide (x.deviation = d)) := by
  intro l
  induction l with
  | nil =>
    by_cases h : a.deviation = d <;> simp [List.orderedInsert, h]
  | cons b l ih =>
    by_cases hab : devGE a b
    · by_cases ha : a.deviation = d <;>
        simp [List.orderedInsert, if_pos hab, List.filter_cons, ha]
    · simp only [List.orderedInsert, if_neg hab]
      by_cases ha : a.deviation = d
      · by_cases hb : b.deviation = d
        · exact absurd (hb.trans ha.symm).le hab
        · simp [List.filter_cons, ha, hb, ih]
      · by_cases hb : b.deviation = d <;> simp [List.filter_cons, ha, hb, ih]

theorem filter_sortKeyBiomarkers (d : ℚ) :
    ∀ l, (sortKeyBiomarkers l).filter (fun x => decide (x.deviation = d)) =
      l.filter (fun x => decide (x.deviation = d)) := by
  intro l
  induction l with
  | nil => rfl
  | cons b l ih =>
    have ih' : (List.insertionSort devGE l).filter (fun x => decide (x.deviation = d)) =
        l.filter (fun x => decide (x.deviation = d)) := ih
    show ((List.insertionSort devGE l).orderedInsert devGE b).filter _ = _
    rw [filter_orderedInsert_dev]
    by_cases hb : b.deviation = d <;> simp [List.filter_cons, hb, ih']

theorem sorted_sortKeyBiomarkers (l : List KeyBiomarker) :
    (sortKeyBiomarkers l).Pairwise devGE :=
  List.sorted_insertionSort devGE l

theorem perm_sortKeyBiomarkers (l : List KeyBiomarker) :
    (sortKeyBiomarkers l).Perm l :=
  List.perm_insertionSort devGE l

/-- C6 amended: for every winning category and raw value map (over a
catalog containing the relevant biomarkers), the ranker gathers each
relevant biomarker present in the input with deviation
`round(|raw − midpoint| / midpoint, 2)`, returns them sorted in descending
order of this stored two-decimal deviation — ties in the stored deviation
preserving the relevance-list order (stable sort) — and truncates to at
most 5 entries. -/
theorem identifyKeyBiomarkers_spec (cat : List Biomarker) (rv : RawValues)
    (prediction : String)
    (hfound : ∀ i ∈ relevanceMap prediction,
      (rv i).isSome → (findBio cat i).isSome) :
    ∃ entries result,
      keyBiomarkerEntries cat rv (relevanceMap prediction) = some entries ∧
      identifyKeyBiomarkers cat rv prediction = some result ∧
      result = (sortKeyBiomarkers entries).take 5 ∧
      result.length ≤ 5 ∧
      result.Pairwise devGE ∧
      (sortKeyBiomarkers entries).Perm entries ∧
      (∀ d : ℚ,
        (sortKeyBiomarkers entries).filter (fun x => decide (x.deviation = d)) =
          entries.filter (fun x => decide (x.deviation = d))) ∧
      (∀ x ∈ entries, ∃ b raw, findBio cat x.id = some b ∧ rv x.id = some raw ∧
        x = mkKeyBiomarker b raw ∧
        x.deviation = pyRound 2 (deviationScore b raw)) := by
  obtain ⟨es, hes, hmem⟩ := keyBiomarkerEntries_sound cat rv _ hfound
  refine ⟨es, (sortKeyBiomarkers es).take 5, hes, ?_, rfl, ?_, ?_,
    perm_sortKeyBiomarkers es, fun d => filter_sortKeyBiomarkers d es, ?_⟩
  · simp only [identifyKeyBiomarkers, hes]
    rfl
  · rw [List.length_take]
    exact min_le_left _ _
  · exact List.Pairwise.sublist (List.take_sublist 5 _) (sorted_sortKeyBiomarkers es)
  · intro x hx
    obtain ⟨b, raw, h1, h2, h3⟩ := hmem x hx
    exact ⟨b, raw, h1, h2, h3, by rw [h3]; simp [mkKeyBiomarker]⟩

theorem identifyKeyBiomarkers_spec_witness :
    (∀ i ∈ relevanceMap "sepsis",
      (c6Raw i).isSome → (findBio c6Catalog i).isSome) ∧
    (∃ entries result,
      keyBiomarkerEntries c6Catalog c6Raw (relevanceMap "sepsis") = some entries ∧
      identifyKeyBiomarkers c6Catalog c6Raw "sepsis" = some result ∧
      result = (sortKeyBiomarkers entries).take 5 ∧
      result.length ≤ 5 ∧
      result.Pairwise devGE ∧
      (sortKeyBiomarkers entries).Perm entries ∧
      (∀ d : ℚ,
        (sortKeyBiomarkers entries).filter (fun x => decide (x.deviation = d)) =
          entries.filter (fun x => decide (x.deviation = d))) ∧
      (∀ x ∈ entries, ∃ b raw,
        findBio c6Catalog x.id = some b ∧ c6Raw x.id = some raw ∧
        x = mkKeyBiomarker b raw ∧
        x.deviation = pyRound 2 (deviationScore b raw))) := by
  have hfound : ∀ i ∈ relevanceMap "sepsis",
      (c6Raw i).isSome → (findBio c6Catalog i).isSome := by
    intro i hi hsome
    simp +decide [relevanceMap] at hi
    rcases hi with rfl | rfl | rfl | rfl
    · decide
    · decide
    · exact absurd hsome (by decide)
    · exact absurd hsome (by decide)
  exact ⟨hfound, identifyKeyBiomarkers_spec c6Catalog c6Raw "sepsis" hfound⟩

theorem roundHalfEven_of_lt (x : ℚ) (n : ℤ) (hn : ⌊x⌋ = n) (h : x - n < 1/2) :
    roundHalfEven x = n := by
  simp only [roundHalfEven, hn]
  rw [if_pos h]

theorem pyRound_of_lt (nd : ℕ) (x : ℚ) (n : ℤ) (hn : ⌊x * 10 ^ nd⌋ = n)
    (h : x * 10 ^ nd - n < 1/2) : pyRound nd x = n / 10 ^ nd := by
  rw [pyRound, roundHalfEven_of_lt _ n hn h]

/-- C6 counterexample: with raw values 1.121 (procalcitonin, true deviation
0.121) and 1.124 (lactate, true deviation 0.124), both deviations round to
0.12, so the ranker keeps relevance order and returns procalcitonin first —
the output is not sorted in descending order of the (unrounded) deviation
score `|raw − midpoint| / midpoint`, and the two scores are not tied. -/
theorem identifyKeyBiomarkers_rounding_counterexample :
    (identifyKeyBiomarkers c6Catalog c6Raw "sepsis").map
      (List.map KeyBiomarker.id) = some ["procalcitonin", "lactate"] ∧
    c6Raw "procalcitonin" = some 1.121 ∧
    c6Raw "lactate" = some 1.124 ∧
    findBio c6Catalog "procalcitonin" = some c6Pct ∧
    findBio c6Catalog "lactate" = some c6Lac ∧
    deviationScore c6Pct 1.121 < deviationScore c6Lac 1.124 := by
  have hdsp : deviationScore c6Pct 1.121 = 0.121 := by
    simp only [deviationScore, c6Pct]
    rw [abs_of_nonneg (by norm_num : (0 : ℚ) ≤ 1.121 - (0 + 2) / 2)]
    norm_num
  have hdsl : deviationScore c6Lac 1.124 = 0.124 := by
    simp only [deviationScore, c6Lac]
    rw [abs_of_nonneg (by norm_num : (0 : ℚ) ≤ 1.124 - (0.5 + 1.5) / 2)]
    norm_num
  have hdevp : pyRound 2 (deviationScore c6Pct 1.121) = 0.12 := by
    rw [hdsp, pyRound_of_lt 2 0.121 12 (by norm_num) (by norm_num)]
    norm_num
  have hdevl : pyRound 2 (deviationScore c6Lac 1.124) = 0.12 := by
    rw [hdsl, pyRound_of_lt 2 0.124 12 (by norm_num) (by norm_num)]
    norm_num
  have hentries : keyBiomarkerEntries c6Catalog c6Raw (relevanceMap "sepsis") =
      some [mkKeyBiomarker c6Pct 1.121, mkKeyBiomarker c6Lac 1.124] := by
    simp +decide [keyBiomarkerEntries, relevanceMap, c6Raw, findBio,
      c6Catalog, c6Pct, c6Lac]
  have hge : devGE (mkKeyBiomarker c6Pct 1.121) (mkKeyBiomarker c6Lac 1.124) := by
    show (mkKeyBiomarker c6Lac 1.124).deviation ≤ (mkKeyBiomarker c6Pct 1.121).deviation
    show pyRound 2 (deviationScore c6Lac 1.124) ≤ pyRound 2 (deviationScore c6Pct 1.121)
    rw [hdevp, hdevl]
  have hsort : sortKeyBiomarkers
      [mkKeyBiomarker c6Pct 1.121, mkKeyBiomarker c6Lac 1.124] =
      [mkKeyBiomarker c6Pct 1.121, mkKeyBiomarker c6Lac 1.124] := by
    show ([mkKeyBiomarker c6Lac 1.124].orderedInsert devGE
      (mkKeyBiomarker c6Pct 1.121)) = _
    rw [List.orderedInsert_of_le _ _ hge]
  refine ⟨?_, by simp +decide [c6Raw], by simp +decide [c6Raw],
    by simp +decide [findBio, c6Catalog, c6Pct, c6Lac],
    by simp +decide [findBio, c6Catalog, c6Pct, c6Lac], ?_⟩
  · simp only [identifyKeyBiomarkers, hentries, hsort, Option.map]
    simp [mkKeyBiomarker, c6Pct, c6Lac]
  · rw [hdsp, hdsl]
    norm_num

theorem partsVal_zero : partsVal ⟨false, 0, 0, 1, 0⟩ = 0 := by
  norm_num [partsVal]

set_option maxRecDepth 100000 in
theorem parse_template_json_eval :
    parse (getTemplate "json") =
      (some (BIOMARKER_ORDER.map (fun i => (i, (0 : ℚ)))), []) := by
  have h : parse (getTemplate "json") =
      (some (BIOMARKER_ORDER.map (fun i => (i, partsVal ⟨false, 0, 0, 1, 0⟩))), []) :=
    rfl
  simpa only [partsVal_zero] using h

set_option maxRecDepth 100000 in
theorem parse_template_kv_eval :
    parse (getTemplate "key_value") =
      (some (BIOMARKER_ORDER.map (fun i => (i, (0 : ℚ)))), []) := by
  have h : parse (getTemplate "key_value") =
      (some (BIOMARKER_ORDER.map (fun i => (i, partsVal ⟨false, 0, 0, 1, 0⟩))), []) :=
    rfl
  simpa only [partsVal_zero] using h

set_option maxRecDepth 100000 in
theorem parse_template_csv_eval :
    parse (getTemplate "csv") =
      (some (BIOMARKER_ORDER.map (fun i => (i, (0 : ℚ)))), []) := by
  have h : parse (getTemplate "csv") =
      (some (BIOMARKER_ORDER.map (fun i => (i, partsVal ⟨false, 0, 0, 1, 0⟩))), []) :=
    rfl
  simpa only [partsVal_zero] using h

/-- C7: generating the input template in each of the three supported
syntaxes and parsing the generated template back succeeds with no errors
and yields exactly the canonical biomarker ids (in canonical order), every
one bound to the template's `0.0` placeholder. -/
theorem template_roundtrip_spec :
    parse (getTemplate "json") =
      (some (BIOMARKER_ORDER.map (fun i => (i, (0 : ℚ)))), []) ∧
    parse (getTemplate "key_value") =
      (some (BIOMARKER_ORDER.map (fun i => (i, (0 : ℚ)))), []) ∧
    parse (getTemplate "csv") =
      (some (BIOMARKER_ORDER.map (fun i => (i, (0 : ℚ)))), []) :=
  ⟨parse_template_json_eval, parse_template_kv_eval, parse_template_csv_eval⟩

/-- C8 counterexample: the pair-syntax input `"hemoglobin=abc, xyz=1.0"`
contains the key `xyz`, which resolves neither against the canonical ids
nor the alias table, yet parsing fails with the invalid-numeric-value error
for the earlier pair, not with `UnknownBiomarker("xyz")`. -/
theorem unknown_key_error_counterexample :
    normalizeBiomarkerName "xyz" = none ∧
    (pySplitOn (fun c => c = ',' || c = '\n') "hemoglobin=abc, xyz=1.0").map
      classifyPair = [.badValue "hemoglobin" "abc", .unknown "xyz"] ∧
    parse "hemoglobin=abc, xyz=1.0" =
      (none, ["Invalid numeric value for hemoglobin: abc"]) ∧
    ["Invalid numeric value for hemoglobin: abc"] ≠
      ["Unknown biomarker: xyz"] := by
  exact ⟨by decide, by decide, by decide, by decide⟩

/-- C8 amended: in both structured and pair syntax, an input containing an
unresolvable key always fails with no value mapping; the error is
`UnknownBiomarker` naming that key provided every earlier entry in input
order is either skipped (pair syntax) or cleanly bound — the parser
reports the first offending entry. -/
theorem parse_unknown_key_spec :
    (∀ (pairs : List String) (acc : List (String × ℚ)) (p key : String),
      p ∈ pairs → classifyPair p = .unknown key →
      (kvLoop pairs acc).1 = none) ∧
    (∀ (l₁ l₂ : List String) (p key : String) (acc : List (String × ℚ)),
      (∀ q ∈ l₁,
        classifyPair q = .skip ∨ ∃ k nk v, classifyPair q = .bind k nk v) →
      classifyPair p = .unknown key →
      kvLoop (l₁ ++ p :: l₂) acc = (none, ["Unknown biomarker: " ++ key])) ∧
    (∀ (entries : List (String × JVal)) (acc : List (String × ℚ))
      (e : String × JVal) (key : String),
      e ∈ entries → classifyJEntry e.1 e.2 = .junknown key →
      (jsonLoop entries acc).1 = none) ∧
    (∀ (l₁ l₂ : List (String × JVal)) (e : String × JVal) (key : String)
      (acc : List (String × ℚ)),
      (∀ q ∈ l₁, ∃ nk v, classifyJEntry q.1 q.2 = .jbind nk v) →
      classifyJEntry e.1 e.2 = .junknown key →
      jsonLoop (l₁ ++ e :: l₂) acc = (none, ["Unknown biomarker: " ++ key])) := by
  refine ⟨?_, ?_, ?_, ?_⟩
  · intro pairs
    induction pairs with
    | nil => intro acc p key hp; exact absurd hp (List.not_mem_nil p)
    | cons q rest ih =>
      intro acc p key hp hc
      cases hq : classifyPair q with
      | skip =>
        simp only [kvLoop, hq]
        rcases List.mem_cons.mp hp with h' | h'
        · rw [← h', hc] at hq; cases hq
        · exact ih acc p key h' hc
      | bind k nk v =>
        simp only [kvLoop, hq]
        rcases List.mem_cons.mp hp with h' | h'
        · rw [← h', hc] at hq; cases hq
        · exact ih _ p key h' hc
      | unknown k' => simp [kvLoop, hq]
      | badValue k' v' => simp [kvLoop, hq]
  · intro l₁
    induction l₁ with
    | nil =>
      intro l₂ p key acc _ hc
      simp only [List.nil_append, kvLoop, hc]
    | cons q l₁ ih =>
      intro l₂ p key acc hclean hc
      rcases hclean q (List.mem_cons_self _ _) with hq | ⟨k, nk, v, hq⟩
      · simp only [List.cons_append, kvLoop, hq]
        exact ih l₂ p key acc
          (fun r hr => hclean r (List.mem_cons_of_mem _ hr)) hc
      · simp only [List.cons_append, kvLoop, hq]
        exact ih l₂ p key _
          (fun r hr => hclean r (List.mem_cons_of_mem _ hr)) hc
  · intro entries
    induction entries with
    | nil => intro acc e key he; exact absurd he (List.not_mem_nil e)
    | cons q rest ih =>
      intro acc e key he hc
      cases hq : classifyJEntry q.1 q.2 with
      | jbind nk v =>
        simp only [jsonLoop, hq]
        rcases List.mem_cons.mp he with h' | h'
        · rw [← h', hc] at hq; cases hq
        · exact ih _ e key h' hc
      | junknown k' => simp [jsonLoop, hq]
      | jbad k' v' => simp [jsonLoop, hq]
  · intro l₁
    induction l₁ with
    | nil =>
      intro l₂ e key acc _ hc
      simp only [List.nil_append, jsonLoop, hc]
    | cons q l₁ ih =>
      intro l₂ e key acc hclean hc
      obtain ⟨nk, v, hq⟩ := hclean q (List.mem_cons_self _ _)
      simp only [List.cons_append, jsonLoop, hq]
      exact ih l₂ e key _
        (fun r hr => hclean r (List.mem_cons_of_mem _ hr)) hc

theorem parse_unknown_key_spec_witness :
    classifyPair "xyz=1.0" = .unknown "xyz" ∧
    kvLoop ["xyz=1.0"] [] = (none, ["Unknown biomarker: xyz"]) ∧
    classifyJEntry "xyz" (.jnum 1) = .junknown "xyz" ∧
    jsonLoop [("xyz", .jnum 1)] [] = (none, ["Unknown biomarker: xyz"]) := by
  have hc : classifyPair "xyz=1.0" = .unknown "xyz" := by decide
  have hcj : classifyJEntry "xyz" (.jnum 1) = .junknown "xyz" := by decide
  refine ⟨hc, ?_, hcj, ?_⟩
  · have h := parse_unknown_key_spec.2.1 [] [] "xyz=1.0" "xyz" []
      (fun q hq => absurd hq (List.not_mem_nil q)) hc
    simpa using h
  · have h := parse_unknown_key_spec.2.2.2 [] [] ("xyz", .jnum 1) "xyz" []
      (fun q hq => absurd hq (List.not_mem_nil q)) hcj
    simpa using h

theorem lookupKV_mem_values {α : Type} (k : String) :
    ∀ (l : List (String × α)) (v : α), lookupKV k l = some v →
      v ∈ l.map Prod.snd := by
  intro l
  induction l with
  | nil => intro v h; simp [lookupKV] at h
  | cons p rest ih =>
    intro v h
    by_cases hp : p.1 = k
    · simp only [lookupKV, if_pos hp] at h
      simp [← Option.some_inj.mp h]
    · simp only [lookupKV, if_neg hp] at h
      simp [ih v h]

theorem alias_values_canonical :
    ∀ v ∈ BIOMARKER_ALIASES.map Prod.snd, v ∈ BIOMARKER_ORDER := by
  decide

theorem normalizeBiomarkerName_mem (s nk : String)
    (h : normalizeBiomarkerName s = some nk) : nk ∈ BIOMARKER_ORDER := by
  simp only [normalizeBiomarkerName] at h
  split_ifs at h with hmem
  · rw [← Option.some_inj.mp h]; exact hmem
  · exact alias_values_canonical nk (lookupKV_mem_values _ _ nk h)

theorem classifyKVParts_bind_mem (kv : String × String) (k nk : String)
    (v : ℚ) (h : classifyKVParts kv = .bind k nk v) : nk ∈ BIOMARKER_ORDER := by
  simp only [classifyKVParts] at h
  cases hn : normalizeBiomarkerName (pyStrip kv.1) with
  | none => rw [hn] at h; cases h
  | some nk' =>
    rw [hn] at h
    cases hf : pyFloat (pyStrip kv.2) with
    | none => rw [hf] at h; cases h
    | some q =>
      rw [hf] at h
      cases h
      exact normalizeBiomarkerName_mem _ nk hn

theorem classifyPair_cases (p : String) :
    classifyPair p = .skip ∨ ∃ kv, classifyPair p = classifyKVParts kv := by
  simp only [classifyPair]
  split_ifs with h1 h2 h3
  · exact Or.inl rfl
  · cases hsp : pySplitFirst (pyStrip p) '=' with
    | none => exact Or.inl rfl
    | some kv => exact Or.inr ⟨kv, rfl⟩
  · cases hsp : pySplitFirst (pyStrip p) ':' with
    | none => exact Or.inl rfl
    | some kv => exact Or.inr ⟨kv, rfl⟩
  · exact Or.inl rfl

theorem classifyPair_bind_mem (p k nk : String) (v : ℚ)
    (h : classifyPair p = .bind k nk v) : nk ∈ BIOMARKER_ORDER := by
  rcases classifyPair_cases p with hp | ⟨kv, hp⟩
  · rw [hp] at h; cases h
  · rw [hp] at h
    exact classifyKVParts_bind_mem kv k nk v h

theorem classifyJEntry_bind_mem (key nk : String) (jv : JVal) (v : ℚ)
    (h : classifyJEntry key jv = .jbind nk v) : nk ∈ BIOMARKER_ORDER := by
  simp only [classifyJEntry] at h
  cases hn : normalizeBiomarkerName key with
  | none => rw [hn] at h; cases h
  | some nk' =>
    rw [hn] at h
    cases hf : jvalToFloat jv with
    | none => rw [hf] at h; cases h
    | some q =>
      rw [hf] at h
      cases h
      exact normalizeBiomarkerName_mem _ nk hn

theorem isSome_lookupKV_insertKV (k nk : String) (q : ℚ)
    (acc : List (String × ℚ)) :
    (lookupKV k (insertKV nk q acc)).isSome ↔
      k = nk ∨ (lookupKV k acc).isSome := by
  by_cases h : k = nk
  · subst h; simp [lookupKV_insertKV_self]
  · simp [lookupKV_insertKV_ne _ _ _ h, h]

theorem missingBiomarkers_nil_iff (acc : List (String × ℚ)) :
    missingBiomarkers acc = [] ↔
      ∀ i ∈ BIOMARKER_ORDER, (lookupKV i acc).isSome := by
  simp only [missingBiomarkers, List.filter_eq_nil_iff]
  constructor
  · intro h i hi
    have := h i hi
    simpa [Option.isNone_iff_eq_none, Option.isSome_iff_exists,
      Option.ne_none_iff_exists'] using this
  · intro h i hi
    have := h i hi
    simpa [Option.isNone_iff_eq_none, Option.isSome_iff_exists,
      Option.ne_none_iff_exists'] using this

theorem kvLoop_keys :
    ∀ (pairs : List String) (acc m : List (String × ℚ)) (errs : List String),
      kvLoop pairs acc = (some m, errs) →
      (∀ k, (lookupKV k acc).isSome → k ∈ BIOMARKER_ORDER) →
      ∀ i, (lookupKV i m).isSome ↔ i ∈ BIOMARKER_ORDER := by
  intro pairs
  induction pairs with
  | nil =>
    intro acc m errs h hacc i
    simp only [kvLoop] at h
    cases hm : missingBiomarkers acc with
    | nil =>
      rw [hm] at h
      obtain ⟨h1, -⟩ := Prod.mk.injEq .. ▸ h
      obtain rfl := Option.some_inj.mp h1
      constructor
      · exact hacc i
      · exact (missingBiomarkers_nil_iff acc).mp hm i
    | cons x xs => rw [hm] at h; cases h
  | cons p rest ih =>
    intro acc m errs h hacc i
    cases hc : classifyPair p with
    | skip =>
      simp only [kvLoop, hc] at h
      exact ih acc m errs h hacc i
    | bind k nk v =>
      simp only [kvLoop, hc] at h
      refine ih _ m errs h ?_ i
      intro k' hk'
      rcases (isSome_lookupKV_insertKV k' nk v acc).mp hk' with rfl | hs
      · exact classifyPair_bind_mem p k k' v hc
      · exact hacc k' hs
    | unknown key => rw [kvLoop, hc] at h; cases h
    | badValue key value => rw [kvLoop, hc] at h; cases h

theorem jsonLoop_keys :
    ∀ (entries : List (String × JVal)) (acc m : List (String × ℚ))
      (errs : List String),
      jsonLoop entries acc = (some m, errs) →
      (∀ k, (lookupKV k acc).isSome → k ∈ BIOMARKER_ORDER) →
      ∀ i, (lookupKV i m).isSome ↔ i ∈ BIOMARKER_ORDER := by
  intro entries
  induction entries with
  | nil =>
    intro acc m errs h hacc i
    simp only [jsonLoop] at h
    cases hm : missingBiomarkers acc with
    | nil =>
      rw [hm] at h
      obtain ⟨h1, -⟩ := Prod.mk.injEq .. ▸ h
      obtain rfl := Option.some_inj.mp h1
      constructor
      · exact hacc i
      · exact (missingBiomarkers_nil_iff acc).mp hm i
    | cons x xs => rw [hm] at h; cases h
  | cons e rest ih =>
    intro acc m errs h hacc i
    cases hc : classifyJEntry e.1 e.2 with
    | jbind nk v =>
      simp only [jsonLoop, hc] at h
      refine ih _ m errs h ?_ i
      intro k' hk'
      rcases (isSome_lookupKV_insertKV k' nk v acc).mp hk' with rfl | hs
      · exact classifyJEntry_bind_mem e.1 k' e.2 v hc
      · exact hacc k' hs
    | junknown key => rw [jsonLoop, hc] at h; cases h
    | jbad key value => rw [jsonLoop, hc] at h; cases h

theorem csvLoop_keys :
    ∀ (pairsKV : List (String × String)) (i0 : ℕ)
      (acc m : List (String × ℚ)) (errs : List String),
      csvLoop i0 pairsKV acc = (some m, errs) →
      ∀ k, (lookupKV k m).isSome ↔
        (k ∈ pairsKV.map Prod.fst ∨ (lookupKV k acc).isSome) := by
  intro pairsKV
  induction pairsKV with
  | nil =>
    intro i0 acc m errs h k
    simp only [csvLoop] at h
    obtain ⟨h1, -⟩ := Prod.mk.injEq .. ▸ h
    obtain rfl := Option.some_inj.mp h1
    simp
  | cons e rest ih =>
    intro i0 acc m errs h k
    cases hf : pyFloat e.2 with
    | none => rw [csvLoop, hf] at h; cases h
    | some q =>
      simp only [csvLoop, hf] at h
      have := ih (i0 + 1) (insertKV e.1 q acc) m errs h k
      rw [this, isSome_lookupKV_insertKV]
      simp only [List.map_cons, List.mem_cons]
      tauto

/-- C9: whenever `parse` returns a value mapping, its key set is exactly
the 24 canonical biomarker ids — none missing and nothing non-canonical —
in every input syntax. -/
theorem parse_canonical_keys_spec (text : String) (m : List (String × ℚ))
    (errs : List String) (h : parse text = (some m, errs)) :
    ∀ i, (lookupKV i m).isSome ↔ i ∈ BIOMARKER_ORDER := by
  intro i
  simp only [parse] at h
  split_ifs at h with h1 h2 h3
  · simp only [parseJsonText] at h
    cases hj : jsonLoads (pyStrip text) with
    | none => rw [hj] at h; cases h
    | some raw =>
      rw [hj] at h
      exact jsonLoop_keys _ _ m errs h
        (fun k hk => absurd hk (by simp [lookupKV])) i
  · simp only [parseKeyValue] at h
    exact kvLoop_keys _ _ m errs h
      (fun k hk => absurd hk (by simp [lookupKV])) i
  · simp only [parseCsv] at h
    split_ifs at h with hlen
    · cases h
    · push_neg at hlen
      have hkeys := csvLoop_keys _ 0 [] m errs h i
      rw [hkeys, List.map_fst_zip _ _ (le_of_eq hlen.symm)]
      simp [lookupKV]
  · cases h

theorem parse_canonical_keys_spec_witness :
    parse (getTemplate "csv") =
      (some (BIOMARKER_ORDER.map (fun i => (i, (0 : ℚ)))), []) ∧
    ((lookupKV "hemoglobin"
        (BIOMARKER_ORDER.map (fun i => (i, (0 : ℚ))))).isSome ↔
      "hemoglobin" ∈ BIOMARKER_ORDER) :=
  ⟨parse_template_csv_eval,
    parse_canonical_keys_spec _ _ _ parse_template_csv_eval "hemoglobin"⟩

theorem isCleanOutcome_spec (o : PairOutcome) (h : isCleanOutcome o = true) :
    o = .skip ∨ ∃ k nk v, o = .bind k nk v := by
  cases o with
  | skip => exact Or.inl rfl
  | bind k nk v => exact Or.inr ⟨k, nk, v, rfl⟩
  | unknown k => cases h
  | badValue k v => cases h

theorem kvBinds_append :
    ∀ (xs ys : List String) (acc : List (String × ℚ)),
      kvBinds (xs ++ ys) acc = kvBinds ys (kvBinds xs acc) := by
  intro xs
  induction xs with
  | nil => intro ys acc; rfl
  | cons p rest ih =>
    intro ys acc
    cases hc : classifyPair p with
    | skip => simp only [List.cons_append, kvBinds, hc]; exact ih ys acc
    | bind k nk v => simp only [List.cons_append, kvBinds, hc]; exact ih ys _
    | unknown k => simp only [List.cons_append, kvBinds, hc]; exact ih ys acc
    | badValue k v => simp only [List.cons_append, kvBinds, hc]; exact ih ys acc

theorem kvBinds_no_bind_lookup (nk : String) :
    ∀ (l : List String) (acc : List (String × ℚ)),
      (∀ q ∈ l, ∀ k k' w, classifyPair q = .bind k k' w → k' ≠ nk) →
      lookupKV nk (kvBinds l acc) = lookupKV nk acc := by
  intro l
  induction l with
  | nil => intro acc _; rfl
  | cons p rest ih =>
    intro acc hl
    cases hc : classifyPair p with
    | skip =>
      simp only [kvBinds, hc]
      exact ih acc (fun q hq => hl q (List.mem_cons_of_mem _ hq))
    | bind k k' w =>
      simp only [kvBinds, hc]
      rw [ih _ (fun q hq => hl q (List.mem_cons_of_mem _ hq))]
      exact lookupKV_insertKV_ne _ _ _
        (Ne.symm (hl p (List.mem_cons_self _ _) k k' w hc)) acc
    | unknown k =>
      simp only [kvBinds, hc]
      exact ih acc (fun q hq => hl q (List.mem_cons_of_mem _ hq))
    | badValue k v =>
      simp only [kvBinds, hc]
      exact ih acc (fun q hq => hl q (List.mem_cons_of_mem _ hq))

theorem kvLoop_clean_eq :
    ∀ (pairs : List String) (acc : List (String × ℚ)),
      (∀ q ∈ pairs,
        classifyPair q = .skip ∨ ∃ k nk v, classifyPair q = .bind k nk v) →
      kvLoop pairs acc =
        match missingBiomarkers (kvBinds pairs acc) with
        | [] => (some (kvBinds pairs acc), [])
        | ms => (none, ["Missing required biomarkers: " ++ joinComma ms]) := by
  intro pairs
  induction pairs with
  | nil => intro acc _; rfl
  | cons p rest ih =>
    intro acc hclean
    rcases hclean p (List.mem_cons_self _ _) with hp | ⟨k, nk, v, hp⟩
    · simp only [kvLoop, kvBinds, hp]
      exact ih acc (fun q hq => hclean q (List.mem_cons_of_mem _ hq))
    · simp only [kvLoop, kvBinds, hp]
      exact ih _ (fun q hq => hclean q (List.mem_cons_of_mem _ hq))

/-- C10: a pair-syntax input whose entries all resolve and parse is not
rejected for binding the same canonical id more than once: parsing
succeeds (the missing check permitting) and the value bound to the
duplicated id is the one from the last occurrence, silently overwriting
earlier occurrences. -/
theorem parseKeyValue_duplicate_last_wins (text : String)
    (l₁ l₂ : List String) (p key nk : String) (v : ℚ)
    (hsplit : pySplitOn (fun c => c = ',' || c = '\n') text = l₁ ++ p :: l₂)
    (hclean : ∀ q ∈ l₁ ++ p :: l₂,
      classifyPair q = .skip ∨ ∃ k k' w, classifyPair q = .bind k k' w)
    (hp : classifyPair p = .bind key nk v)
    (hlast : ∀ q ∈ l₂, ∀ k k' w, classifyPair q = .bind k k' w → k' ≠ nk)
    (hcomplete : missingBiomarkers (kvBinds (l₁ ++ p :: l₂) []) = []) :
    parseKeyValue text = (some (kvBinds (l₁ ++ p :: l₂) []), []) ∧
    lookupKV nk (kvBinds (l₁ ++ p :: l₂) []) = some v := by
  constructor
  · simp only [parseKeyValue, hsplit]
    rw [kvLoop_clean_eq _ _ hclean, hcomplete]
  · rw [kvBinds_append l₁ (p :: l₂) []]
    show lookupKV nk (kvBinds (p :: l₂) (kvBinds l₁ [])) = some v
    simp only [kvBinds, hp]
    rw [kvBinds_no_bind_lookup nk l₂ _ hlast]
    exact lookupKV_insertKV_self nk v _

theorem parseKeyValue_duplicate_last_wins_witness :
    parseKeyValue c10Text =
      (some (kvBinds (c10Prefix ++ [" hemoglobin=9.9"]) []), []) ∧
    lookupKV "hemoglobin" (kvBinds (c10Prefix ++ [" hemoglobin=9.9"]) []) =
      some 9.9 := by
  have hcleanb : (c10Prefix ++ [" hemoglobin=9.9"]).all
      (fun q => isCleanOutcome (classifyPair q)) = true := by decide
  have hclean : ∀ q ∈ c10Prefix ++ [" hemoglobin=9.9"],
      classifyPair q = .skip ∨ ∃ k k' w, classifyPair q = .bind k k' w :=
    fun q hq => isCleanOutcome_spec _ (List.all_eq_true.mp hcleanb q hq)
  have h := parseKeyValue_duplicate_last_wins c10Text c10Prefix []
    " hemoglobin=9.9" "hemoglobin" "hemoglobin" (partsVal ⟨false, 9, 9, 1, 0⟩)
    (by decide) hclean rfl
    (fun q hq => absurd hq (List.not_mem_nil q)) (by decide)
  have hv : partsVal ⟨false, 9, 9, 1, 0⟩ = 9.9 := by norm_num [partsVal]
  exact ⟨h.1, by rw [h.2, hv]⟩

end MediGuard
